import Mathlib

/-!
Verification of the go-sockjsclient transport/connection layer.

Shallow embedding of the Go sources:
  * `conn.go`      — frame codec (`parseMessage`), error sentinels;
  * the websocket transport file — `WSDialer.DialContext`, `wsConn`
    (read loop, heartbeat watcher, `run`, `ReadMsg`/`WriteMsg`/`Close`);
  * `xhr.go`       — `XHRDialer.DialContext`, `xhrConn`;
  * `client.go`    — `Client.ConnectContext` and friends;
  * the helpers file — `parseTransportAddr`, `maskCtxCancelled`,
    `paddedRandomIntn`.

Modelling conventions:
  * Go byte strings are modelled as `List Char` (frames on the wire are
    UTF-8 text messages; `bytes.TrimSpace` and the JSON codec operate
    rune-wise, which this mirrors directly).
  * `encoding/json` behaviour used by the code (marshalling a `[]string`,
    unmarshalling into `[]string` and into `[]interface{}`) is embedded by
    an executable JSON codec below.
  * Fallible Go functions return `Except`/`Option`; a Go runtime panic is
    modelled as `Option.none` at the point where it occurs.
  * Randomness (`rand.Intn`) and network outcomes are passed in as
    explicit parameters.
  * The concurrent behaviour of the two connection types is embedded as
    explicit labelled transition systems further below; every channel
    operation or shared-field write of the Go code is one transition.
-/

set_option maxRecDepth 40000
set_option maxHeartbeats 1000000

namespace Sockjs

/-! ## Error values (`conn.go`, `client.go` sentinels and their wrappings) -/

/-- A JSON value, as produced by decoding into Go's `interface{}`.
Numbers are kept as their source literal (the parse branch the code takes
does not depend on numeric value). -/
inductive JsonVal where
  | null
  | bool (b : Bool)
  | num (lit : List Char)
  | str (s : List Char)
  | arr (elems : List JsonVal)
  | obj (fields : List (List Char × JsonVal))

/-- The error values the library can produce, including the `fmt.Errorf`
wrappings of the sentinel errors declared in `conn.go` and `client.go`. -/
inductive Err where
  /-- bare `ErrClosedConnection` -/
  | closedConnection
  /-- The `ErrClosedConnection` wrapped with "(no close frame received)" -/
  | closedConnectionNoFrame
  /-- The `ErrClosedConnection` wrapping an underlying websocket close error -/
  | closedConnectionWrapped
  /-- The `ErrClosedByRemote`; carries the two decoded close values when the
  close payload parsed as a two-element JSON array, `none` otherwise -/
  | closedByRemote (vals : Option (JsonVal × JsonVal))
  /-- The `ErrClosingConnection` wrapping an underlying close error -/
  | closingConnection
  /-- bare `ErrInvalidResponse` (bad heartbeat/open trailer) -/
  | invalidResponse
  /-- The `ErrInvalidResponse` wrapped with "unknown message type" and the tag -/
  | invalidResponseUnknownType (c : Char)
  /-- The `ErrInvalidResponse` wrapped with "opening sockjs session" -/
  | invalidResponseOpening
  /-- The `ErrUnexpectedResponse` with an HTTP status code -/
  | unexpectedResponse (status : Nat)
  /-- The `ErrNoHeartbeat` -/
  | noHeartbeat
  /-- The `ErrClientNotConnected` -/
  | clientNotConnected
  /-- The `ErrClientCannotConnect` wrapping an info-endpoint failure -/
  | clientCannotConnectInfo
  /-- The `ErrClientCannotConnect` naming both the ws and the xhr failure -/
  | clientCannotConnectBoth (wsErr xhrErr : Err)
  /-- The `ErrClientCannotConnect` naming only the xhr failure -/
  | clientCannotConnectXHR (xhrErr : Err)
  /-- The `errNoAddressProvided` -/
  | noAddressProvided
  /-- "no server id provided" -/
  | noServerID
  /-- "no session id provided" -/
  | noSessionID
  /-- a `context.Canceled`/deadline error from a request context -/
  | ctxCanceled
  /-- a generic transport read/receive failure -/
  | readNetworkErr
  /-- a generic transport write failure -/
  | writeNetworkErr
  /-- a generic dial failure -/
  | dialNetworkErr
  /-- a `json.Unmarshal` failure inside a read loop -/
  | jsonDecodeErr

/-- The `errors.Is(err, ErrClosedConnection)`: which of our error values wrap
the `ErrClosedConnection` sentinel. -/
def Err.isClosedConnection : Err → Bool
  | .closedConnection => true
  | .closedConnectionNoFrame => true
  | .closedConnectionWrapped => true
  | _ => false

/-- Whether an error value is the context-cancellation error. -/
def Err.isCtxCanceled : Err → Bool
  | .ctxCanceled => true
  | _ => false

/-- The `maskCtxCancelled` from the helpers file: once the connection context is
cancelled, a context-cancellation error is replaced by `ErrClosedConnection`
(`errors.Is(err, ctx.Err())` with `ctx.Err() = context.Canceled`). -/
def maskCtxCancelled (cancelled : Bool) (e : Err) : Err :=
  if cancelled ∧ e.isCtxCanceled then .closedConnection else e

/-! ## Frame codec (`conn.go`) -/

/-- The `MessageType` constants from `conn.go`. -/
inductive MessageType where
  | unhandled
  | heartbeat
  | dataFrame
  | openFrame
  | closeFrame
deriving DecidableEq, Repr

/-- The `unicode.IsSpace` on a rune, as used by `bytes.TrimSpace`. -/
def isUnicodeSpace (c : Char) : Bool :=
  c = '\t' ∨ c = '\n' ∨ c.toNat = 11 ∨ c.toNat = 12 ∨ c = '\r' ∨ c = ' ' ∨
  c.toNat = 0x85 ∨ c.toNat = 0xA0 ∨ c.toNat = 0x1680 ∨
  (0x2000 ≤ c.toNat ∧ c.toNat ≤ 0x200A) ∨
  c.toNat = 0x2028 ∨ c.toNat = 0x2029 ∨ c.toNat = 0x202F ∨
  c.toNat = 0x205F ∨ c.toNat = 0x3000

/-- The `bytes.TrimSpace`: drop leading and trailing Unicode whitespace. -/
def trimSpace (l : List Char) : List Char :=
  ((l.dropWhile isUnicodeSpace).reverse.dropWhile isUnicodeSpace).reverse

/-! ### JSON codec (the `encoding/json` behaviour the library relies on) -/

/-- JSON structural whitespace (`encoding/json` scanner: space, tab, CR, LF). -/
def jsonIsSpace (c : Char) : Bool :=
  c = ' ' ∨ c = '\t' ∨ c = '\n' ∨ c = '\r'

def jsonSkipWs (l : List Char) : List Char := l.dropWhile jsonIsSpace

/-- Value of a hex digit, if any. -/
def hexDigitVal (c : Char) : Option Nat :=
  if '0' ≤ c ∧ c ≤ '9' then some (c.toNat - 48)
  else if 'a' ≤ c ∧ c ≤ 'f' then some (c.toNat - 97 + 10)
  else if 'A' ≤ c ∧ c ≤ 'F' then some (c.toNat - 65 + 10)
  else none

/-- Lower-case hex digit for a value below 16 (as emitted by
`encoding/json`'s `\u00xx` escapes). -/
def hexDigitChar (n : Nat) : Char :=
  if n < 10 then Char.ofNat (48 + n) else Char.ofNat (97 + n - 10)

/-- Decode the body of a JSON string literal (everything after the opening
quote), returning the decoded characters and the input after the closing
quote.  Follows `encoding/json` unquoting: named escapes, `\uXXXX` with
surrogate-pair combination (a lone surrogate becomes U+FFFD), and raw
control characters are rejected.  The fuel only bounds recursion (each
recursive call has consumed at least one input character, so any fuel
above the input length is enough). -/
def decodeStringBody : Nat → List Char → Option (List Char × List Char)
  | 0, _ => none
  | _, [] => none
  | _+1, '"' :: rest => some ([], rest)
  | fuel+1, '\\' :: 'u' :: h1 :: h2 :: h3 :: h4 :: rest => do
    let a ← hexDigitVal h1
    let b ← hexDigitVal h2
    let c ← hexDigitVal h3
    let d ← hexDigitVal h4
    let code := a * 4096 + b * 256 + c * 16 + d
    if 0xD800 ≤ code ∧ code ≤ 0xDBFF then
      -- high surrogate: try to combine with a following \uXXXX low surrogate
      match rest with
      | '\\' :: 'u' :: g1 :: g2 :: g3 :: g4 :: rest2 => do
        let a2 ← hexDigitVal g1
        let b2 ← hexDigitVal g2
        let c2 ← hexDigitVal g3
        let d2 ← hexDigitVal g4
        let code2 := a2 * 4096 + b2 * 256 + c2 * 16 + d2
        if 0xDC00 ≤ code2 ∧ code2 ≤ 0xDFFF then
          let comb := 0x10000 + (code - 0xD800) * 1024 + (code2 - 0xDC00)
          let (s, r) ← decodeStringBody fuel rest2
          pure (Char.ofNat comb :: s, r)
        else
          let (s, r) ← decodeStringBody fuel rest
          pure ('�' :: s, r)
      | _ =>
        let (s, r) ← decodeStringBody fuel rest
        pure ('�' :: s, r)
    else if 0xDC00 ≤ code ∧ code ≤ 0xDFFF then
      let (s, r) ← decodeStringBody fuel rest
      pure ('�' :: s, r)
    else
      let (s, r) ← decodeStringBody fuel rest
      pure (Char.ofNat code :: s, r)
  | fuel+1, '\\' :: e :: rest => do
    let c ← match e with
      | '"' => some '"'
      | '\\' => some '\\'
      | '/' => some '/'
      | 'b' => some (Char.ofNat 8)
      | 'f' => some (Char.ofNat 12)
      | 'n' => some '\n'
      | 'r' => some '\r'
      | 't' => some '\t'
      | _ => none
    let (s, r) ← decodeStringBody fuel rest
    pure (c :: s, r)
  | fuel+1, c :: rest =>
    if c.toNat < 0x20 then none
    else do
      let (s, r) ← decodeStringBody fuel rest
      pure (c :: s, r)

/-- Scan a JSON number literal (after an optional leading minus handled by
the caller): `int [frac] [exp]` per the JSON grammar. Returns the literal
characters and the remainder. -/
def scanDigits : List Char → List Char × List Char
  | c :: rest =>
    if '0' ≤ c ∧ c ≤ '9' then
      let (ds, r) := scanDigits rest
      (c :: ds, r)
    else ([], c :: rest)
  | [] => ([], [])

def scanNumber (l : List Char) : Option (List Char × List Char) := do
  let (neg, l1) := match l with
    | '-' :: r => ([('-' : Char)], r)
    | _ => ([], l)
  -- integer part: 0 or [1-9]digits
  let (ip, l2) ← match l1 with
    | '0' :: r => some ([('0' : Char)], r)
    | c :: r =>
      if '1' ≤ c ∧ c ≤ '9' then
        let (ds, r2) := scanDigits r
        some (c :: ds, r2)
      else none
    | [] => none
  -- fractional part
  let (fp, l3) ← match l2 with
    | '.' :: r =>
      match scanDigits r with
      | ([], _) => none
      | (ds, r2) => some ('.' :: ds, r2)
    | _ => some ([], l2)
  -- exponent part
  let (ep, l4) ← match l3 with
    | c :: r =>
      if c = 'e' ∨ c = 'E' then
        let (sgn, r1) := match r with
          | '+' :: rr => ([('+' : Char)], rr)
          | '-' :: rr => ([('-' : Char)], rr)
          | _ => ([], r)
        match scanDigits r1 with
        | ([], _) => none
        | (ds, r2) => some (c :: sgn ++ ds, r2)
      else some ([], l3)
    | [] => some ([], [])
  pure (neg ++ ip ++ fp ++ ep, l4)

mutual

/-- Parse one JSON value (fuelled recursive-descent, mirroring the
`encoding/json` grammar).  Consumes leading whitespace. -/
def parseJsonValue : Nat → List Char → Option (JsonVal × List Char)
  | 0, _ => none
  | fuel+1, input =>
    match jsonSkipWs input with
    | 'n' :: 'u' :: 'l' :: 'l' :: rest => some (.null, rest)
    | 't' :: 'r' :: 'u' :: 'e' :: rest => some (.bool true, rest)
    | 'f' :: 'a' :: 'l' :: 's' :: 'e' :: rest => some (.bool false, rest)
    | '"' :: rest => do
      let (s, r) ← decodeStringBody (rest.length + 1) rest
      pure (.str s, r)
    | '[' :: rest =>
      (match jsonSkipWs rest with
      | ']' :: r2 => some (.arr [], r2)
      | other => do
        let (es, r2) ← parseJsonElems fuel other
        pure (.arr es, r2))
    | '{' :: rest =>
      (match jsonSkipWs rest with
      | '}' :: r2 => some (.obj [], r2)
      | other => do
        let (fs, r2) ← parseJsonFields fuel other
        pure (.obj fs, r2))
    | other => do
      let (lit, r) ← scanNumber other
      pure (.num lit, r)

/-- Parse the elements of a non-empty JSON array, up to and including the
closing bracket. -/
def parseJsonElems : Nat → List Char → Option (List JsonVal × List Char)
  | 0, _ => none
  | fuel+1, input => do
    let (v, r) ← parseJsonValue fuel input
    match jsonSkipWs r with
    | ',' :: r2 => do
      let (vs, r3) ← parseJsonElems fuel r2
      pure (v :: vs, r3)
    | ']' :: r2 => pure ([v], r2)
    | _ => none

/-- Parse the fields of a non-empty JSON object, up to and including the
closing brace. -/
def parseJsonFields : Nat → List Char → Option (List (List Char × JsonVal) × List Char)
  | 0, _ => none
  | fuel+1, input =>
    match jsonSkipWs input with
    | '"' :: rest => do
      let (k, r) ← decodeStringBody (rest.length + 1) rest
      match jsonSkipWs r with
      | ':' :: r2 => do
        let (v, r3) ← parseJsonValue fuel r2
        match jsonSkipWs r3 with
        | ',' :: r4 => do
          let (fs, r5) ← parseJsonFields fuel r4
          pure ((k, v) :: fs, r5)
        | '}' :: r4 => pure ([(k, v)], r4)
        | _ => none
      | _ => none
    | _ => none

end

/-- The `json.Unmarshal(data, &v)` for `v : []interface{}` (used by the `c`
frame branch of `parseMessage`): the input must be a single well-formed
JSON value followed only by whitespace, and the value must be an array
(`null` leaves the nil slice in place, which the caller sees as length 0). -/
def jsonUnmarshalIfaceArr (input : List Char) : Option (List JsonVal) := do
  let (v, rest) ← parseJsonValue (input.length + 1) input
  if (jsonSkipWs rest).isEmpty then
    match v with
    | .arr es => some es
    | .null => some []
    | _ => none
  else none

/-- One character of `encoding/json` string encoding with the default HTML
escaping, exactly as `json.Marshal` produces it: `"` and `\` and the named
control escapes, other control characters as `\u00xx`, the HTML-unsafe
characters `<` `>` `&` as `\u00..`, U+2028/U+2029 escaped, everything else
verbatim. -/
def escChar (c : Char) : List Char :=
  if c = '"' then ['\\', '"']
  else if c = '\\' then ['\\', '\\']
  else if c = '\n' then ['\\', 'n']
  else if c = '\r' then ['\\', 'r']
  else if c = '\t' then ['\\', 't']
  else if c.toNat < 0x20 then
    ['\\', 'u', '0', '0', hexDigitChar (c.toNat / 16), hexDigitChar (c.toNat % 16)]
  else if c = '<' then ['\\', 'u', '0', '0', '3', 'c']
  else if c = '>' then ['\\', 'u', '0', '0', '3', 'e']
  else if c = '&' then ['\\', 'u', '0', '0', '2', '6']
  else if c.toNat = 0x2028 then ['\\', 'u', '2', '0', '2', '8']
  else if c.toNat = 0x2029 then ['\\', 'u', '2', '0', '2', '9']
  else [c]

/-- The `json.Marshal` of one Go string. -/
def encodeStringGo (s : List Char) : List Char :=
  '"' :: (s.flatMap escChar ++ ['"'])

/-- The comma-separated encodings of a list of strings. -/
def encElems : List (List Char) → List Char
  | [] => []
  | [m] => encodeStringGo m
  | m :: ms => encodeStringGo m ++ ',' :: encElems ms

/-- The `json.Marshal(msgs)` for `msgs : []string` — exactly the bytes
`wsConn.WriteMsg`/`xhrConn.WriteMsg` put on the wire for a message batch
(a non-nil empty slice marshals to `[]`). -/
def goJsonMarshalStrings (msgs : List (List Char)) : List Char :=
  '[' :: (encElems msgs ++ [']'])

/-- Elements of a non-empty JSON array decoded into Go strings, up to and
including the closing bracket (a `null` element leaves the string at its
zero value, the empty string, without error — `encoding/json` semantics). -/
def decodeStrElems : Nat → List Char → Option (List (List Char) × List Char)
  | 0, _ => none
  | fuel+1, input =>
    match jsonSkipWs input with
    | '"' :: rest => do
      let (s, r) ← decodeStringBody (rest.length + 1) rest
      match jsonSkipWs r with
      | ',' :: r2 => do
        let (ss, r3) ← decodeStrElems fuel r2
        pure (s :: ss, r3)
      | ']' :: r2 => pure ([s], r2)
      | _ => none
    | 'n' :: 'u' :: 'l' :: 'l' :: rest =>
      match jsonSkipWs rest with
      | ',' :: r2 => do
        let (ss, r3) ← decodeStrElems fuel r2
        pure ([] :: ss, r3)
      | ']' :: r2 => pure ([[]], r2)
      | _ => none
    | _ => none

/-- The `json.Unmarshal(input, &msgs)` for `msgs : []string`, as performed by
both read loops on a Data frame's payload: the input must be one JSON
array of strings (or `null`, which leaves the empty slice) followed only
by whitespace. -/
def jsonUnmarshalStringArr (input : List Char) : Option (List (List Char)) :=
  match jsonSkipWs input with
  | '[' :: rest =>
    (match jsonSkipWs rest with
    | ']' :: r2 => if (jsonSkipWs r2).isEmpty then some [] else none
    | other =>
      match decodeStrElems (input.length + 1) other with
      | some (ss, rem) => if (jsonSkipWs rem).isEmpty then some ss else none
      | none => none)
  | 'n' :: 'u' :: 'l' :: 'l' :: rest =>
    if (jsonSkipWs rest).isEmpty then some [] else none
  | _ => none


/-! ## Transport address builder (`parseTransportAddr` and Go's `path` package) -/

/-- One pass of `path.Clean`'s segment processing: `acc` is the output
stack in reverse (most recent first).  Empty and `.` segments are dropped;
`..` pops a segment, except that in a rooted path it is dropped at the
root, and in an unrooted path it is kept when there is nothing (or only
`..`s) to pop. -/
def cleanSegs (rooted : Bool) : List (List Char) → List (List Char) → List (List Char)
  | acc, [] => acc.reverse
  | acc, seg :: rest =>
    if seg = [] ∨ seg = ['.'] then cleanSegs rooted acc rest
    else if seg = ['.', '.'] then
      match acc with
      | [] => if rooted then cleanSegs rooted [] rest else cleanSegs rooted [seg] rest
      | t :: acc2 =>
        if t = ['.', '.'] ∧ ¬rooted then cleanSegs rooted (seg :: acc) rest
        else cleanSegs rooted acc2 rest
    else cleanSegs rooted (seg :: acc) rest

/-- Go's `path.Clean` (pure-slash paths). -/
def goPathClean (p : List Char) : List Char :=
  if p = [] then ['.']
  else
    let rooted := p.head? = some '/'
    let segs := cleanSegs rooted [] (p.splitOn '/')
    let out := List.intercalate ['/'] segs
    if rooted then '/' :: out
    else if out = [] then ['.']
    else out

/-- Go's `path.Join`: join the non-empty elements with slashes, then
`Clean`; all-empty input gives the empty string.  (Go appends a separator
slash even before an empty element once the buffer is non-empty; since
`Clean` erases empty segments this is equivalent to joining the non-empty
elements.) -/
def goPathJoin (elems : List (List Char)) : List Char :=
  let joined := List.intercalate ['/'] (elems.filter (· ≠ []))
  if joined = [] then [] else goPathClean joined

/-- The parts of a parsed `net/url.URL` that `parseTransportAddr` uses. -/
structure GoURL where
  scheme : List Char
  host : List Char
  path : List Char

/-- The `parseTransportAddr` from the helpers file, after a successful
`url.Parse` (the function's inputs here are the parsed URL's fields).
Requires both IDs to be non-empty, joins host/path/serverID/sessionID,
and prepends `scheme://` when the base address carried a scheme. -/
def parseTransportAddr (u : GoURL) (serverID sessionID : List Char) : Except Err (List Char) :=
  if serverID = [] then .error .noServerID
  else if sessionID = [] then .error .noSessionID
  else
    let taddr := goPathJoin [u.host, u.path, serverID, sessionID]
    .ok (if u.scheme ≠ [] then u.scheme ++ ':' :: '/' :: '/' :: taddr else taddr)

/-! ## Identifier generation (`paddedRandomIntn`) and `Client.ConnectContext` -/

/-- Decimal digits of `n` (fuelled so that it evaluates in the kernel;
`goItoa` always supplies enough fuel). -/
def natDigitsAux : Nat → Nat → List Char
  | 0, _ => []
  | fuel+1, n =>
    if n < 10 then [Char.ofNat (48 + n)]
    else natDigitsAux fuel (n / 10) ++ [Char.ofNat (48 + n % 10)]

/-- The `strconv.Itoa` for natural numbers. -/
def goItoa (n : Nat) : List Char := natDigitsAux (n + 1) n

/-- Numeric value of a decimal digit string (for stating round trips). -/
def digitsVal (l : List Char) : Nat := l.foldl (fun a c => a * 10 + (c.toNat - 48)) 0

/-- The `paddedRandomIntn` from the helpers file.  The Go function draws
`ri := rand.Intn(mx)`; the draw is passed in explicitly here, subject to
the hypothesis `ri < mx` in the theorems. -/
def paddedRandomIntn (mx ri : Nat) : List Char :=
  let ml := (goItoa mx).length
  let is := goItoa ri
  if is.length < ml then List.replicate (ml - is.length) '0' ++ is else is

/-- The `/info` response (`server.go`'s `ServerInfo`). -/
structure ServerInfo where
  websocket : Bool
  cookieNeeded : Bool
  origins : List (List Char)
  entropy : Int

/-- Which transport a connection uses. -/
inductive ConnKind where
  | ws
  | xhr
deriving DecidableEq

/-- The fields of `Client` that `ConnectContext` reads and writes. -/
structure ClientState where
  address : List Char
  serverID : List Char
  sessionID : List Char
  noWebsocket : Bool
  conn : Option ConnKind
  info : Option ServerInfo

/-- Outcome of one `ConnectContext` call. -/
structure ConnectResult where
  client : ClientState
  result : Option Err
  attempted : List ConnKind

/-- The identifier-generation step of `ConnectContext`: a missing server ID
is drawn via `paddedRandomIntn(999)`, a missing session ID becomes the
generated UUID; both are stored on the client. -/
def generateIDs (c : ClientState) (riServer : Nat) (genSession : List Char) : ClientState :=
  let c1 := if c.serverID = [] then { c with serverID := paddedRandomIntn 999 riServer } else c
  if c1.sessionID = [] then { c1 with sessionID := genSession } else c1

/-- The `Client.ConnectContext` (`client.go` lines 56-149) with its external
effects passed in: the `/info` fetch outcome, the `rand.Intn(999)` draw,
the generated session UUID, and the outcomes of the two dials.  Mirrors
the control flow exactly: info failure aborts (with the no-address error
when the address is empty); missing IDs are generated and stored; the
websocket dial runs first exactly when enabled and supported, installing
the conn on success; the xhr dial always runs otherwise, and the final
error names both failures or just the xhr one. -/
def connectContext (c : ClientState) (infoRes : Except Err ServerInfo)
    (riServer : Nat) (genSession : List Char)
    (wsRes : Except Err Unit) (xhrRes : Except Err Unit) : ConnectResult :=
  match infoRes with
  | .error _ =>
    if c.address = [] then ⟨c, some .noAddressProvided, []⟩
    else ⟨c, some .clientCannotConnectInfo, []⟩
  | .ok info =>
    let c2 := generateIDs c riServer genSession
    if ¬c2.noWebsocket ∧ info.websocket then
      match wsRes with
      | .ok _ => ⟨{ c2 with conn := some .ws, info := some info }, none, [.ws]⟩
      | .error wsErr =>
        match xhrRes with
        | .ok _ => ⟨{ c2 with conn := some .xhr, info := some info }, none, [.ws, .xhr]⟩
        | .error xhrErr => ⟨c2, some (.clientCannotConnectBoth wsErr xhrErr), [.ws, .xhr]⟩
    else
      match xhrRes with
      | .ok _ => ⟨{ c2 with conn := some .xhr, info := some info }, none, [.xhr]⟩
      | .error xhrErr => ⟨c2, some (.clientCannotConnectXHR xhrErr), [.xhr]⟩

/-! ## `parseMessage` (`conn.go` lines 45-78)

`Option.none` models the runtime panic of `data[0]` on an empty slice.
The triple mirrors the Go result `(MessageType, []byte, error)` with the
`error` as `Option Err`. -/

def parseMessage (data : List Char) : Option (MessageType × List Char × Option Err) :=
  match data with
  | [] => none
  | c :: rest =>
    if c = 'h' then
      if (trimSpace rest).length ≠ 0 then some (.heartbeat, [], some .invalidResponse)
      else some (.heartbeat, [], none)
    else if c = 'a' then
      some (.dataFrame, rest, none)
    else if c = 'o' then
      if (trimSpace rest).length ≠ 0 then some (.openFrame, [], some .invalidResponse)
      else some (.openFrame, [], none)
    else if c = 'c' then
      match jsonUnmarshalIfaceArr rest with
      | some [v0, v1] => some (.closeFrame, [], some (.closedByRemote (some (v0, v1))))
      | _ => some (.closeFrame, [], some (.closedByRemote none))
    else
      some (.unhandled, [], some (.invalidResponseUnknownType c))


/-! ## Dialers (`WSDialer.DialContext`, `XHRDialer.DialContext`) -/

/-- Result of a dial attempt: a connection handed to the caller, an error
(no connection), or a runtime panic inside the dial. -/
inductive DialOut where
  | panicked
  | err (e : Err)
  | ok

/-- Whether a frame parses, without error, as the Open type. -/
def parsesAsOpen (b : List Char) : Bool :=
  match parseMessage b with
  | some (.openFrame, _, none) => true
  | _ => false

/-- The `WSDialer.DialContext`: build the transport address, dial (outcome
passed in), read exactly one websocket message (outcome passed in), and
require it to parse as an Open frame; any other parse outcome fails with
the invalid-response "opening sockjs session" error and returns no
connection. -/
def wsDialContext (u : GoURL) (serverID sessionID : List Char)
    (dialRes : Except Err Unit) (firstRead : Except Err (List Char)) : DialOut :=
  match parseTransportAddr u serverID sessionID with
  | .error e => .err e
  | .ok _ =>
    match dialRes with
    | .error e => .err e
    | .ok _ =>
      match firstRead with
      | .error e => .err e
      | .ok b =>
        match parseMessage b with
        | none => .panicked
        | some (mt, _, e?) =>
          if e?.isSome ∨ mt ≠ .openFrame then .err .invalidResponseOpening
          else .ok

/-- The `XHRDialer.DialContext`: build the transport address, POST the initial
`/xhr` receive request (outcome passed in), read the body (passed in; the
HTTP status is never consulted), and validate the body as an Open frame
exactly as the websocket dialer does. -/
def xhrDialContext (u : GoURL) (serverID sessionID : List Char)
    (reqRes : Except Err Unit) (bodyRead : Except Err (List Char)) : DialOut :=
  match parseTransportAddr u serverID sessionID with
  | .error e => .err e
  | .ok _ =>
    match reqRes with
    | .error e => .err e
    | .ok _ =>
      match bodyRead with
      | .error e => .err e
      | .ok b =>
        match parseMessage b with
        | none => .panicked
        | some (mt, _, e?) =>
          if e?.isSome ∨ mt ≠ .openFrame then .err .invalidResponseOpening
          else .ok


/-! ## The `wsConn` labelled transition system

Each goroutine of the websocket connection — the `run`/`readLoop`
goroutine, the heartbeat watcher spawned inside `readLoop`, and the
application thread calling `ReadMsg`/`WriteMsg`/`Close` — is modelled by a
program counter, and every channel operation or shared-field write of the
Go code is one labelled transition.  Nondeterminism (scheduling, frame
contents, network outcomes, `select` choices) is carried by the event
labels; `wsStep` returns `none` when an event is not enabled (the
corresponding Go operation would block or is not at that program point).
Two ghost fields record what the claims talk about: `hist` is every value
ever enqueued on the inbound channel (tagged by its producer), `appLog`
the results of completed application calls. -/

/-- A value on the inbound channel `conn.in`: a message or an error. -/
inductive InVal where
  | msg (m : List Char)
  | err (e : Err)

/-- Which goroutine enqueued a value (ghost tag): the read loop's message
enqueues, `run`'s final error propagation, or the heartbeat watcher. -/
inductive Producer where
  | loopP
  | runP
  | watcherP
deriving DecidableEq

/-- Program counter of the `run`/`readLoop` goroutine.  The `close*`
states walk through `wsConn.Close` as invoked by the deferred cleanup,
carrying the loop's exit error; `drain` is the deferred
`if !timer.Stop() { <-timer.C }`; `returned` is `run` after `readLoop`
returned, about to enqueue the final error. -/
inductive RlPC where
  | reading
  | hbSend
  | enqueue (pending : List (List Char))
  | closeChk (e : Err)
  | closeSend (e : Err)
  | closeNet (e : Err)
  | closeCncl (e : Err)
  | drain (e : Err)
  | closeHb (e : Err)
  | returned (e : Err)
  | exited
  | panicked

def RlPC.isExited : RlPC → Bool
  | .exited => true
  | _ => false

/-- Program counter of the heartbeat watcher goroutine. -/
inductive WPC where
  | sel
  | closeChk
  | closeSend
  | closeNet
  | closeCncl
  | enqErr
  | done
deriving DecidableEq

/-- Program counter of the application thread (its `Close` walks the same
`wsConn.Close` micro-steps; `WriteMsg` has its network step). -/
inductive APC where
  | idle
  | closeSend
  | closeNet
  | closeCncl (closeErr : Bool)
  | writeNet
deriving DecidableEq

/-- Result of one completed application call. -/
inductive AppRes where
  | closeRet (e : Option Err)
  | readRet (r : Except Err (List Char))
  | writeRet (e : Option Err)

/-- Outcome of a `WriteMessage(CloseMessage, ...)` inside `Close`. -/
inductive COut where
  | sendOk
  | sendErrClosed
  | sendErrOther

/-- Outcome of the `WriteMessage` in `WriteMsg`. -/
inductive WOut where
  | writeOk
  | writeFail (closedType : Bool)

structure WsSt where
  /-- the cancellation token: `ctx.Err() != nil` -/
  cancelled : Bool
  /-- the underlying websocket has been closed -/
  netClosed : Bool
  /-- buffer of the inbound channel `conn.in` (capacity 10) -/
  queue : List InVal
  /-- the 30-second timer is counting down -/
  timerActive : Bool
  /-- a fire value is sitting unconsumed in `timer.C` -/
  timerChan : Bool
  /-- The `close(heartbeat)` has run -/
  hbClosed : Bool
  rl : RlPC
  w : WPC
  app : APC
  /-- ghost: every value ever enqueued on `conn.in`, in order -/
  hist : List (Producer × InVal)
  /-- ghost: results of completed application calls, in order -/
  appLog : List AppRes

/-- The state right after `DialContext` hands back the connection: loop
reading, watcher at its select, timer armed, nothing queued. -/
def wsInit : WsSt :=
  ⟨false, false, [], true, false, false, .reading, .sel, .idle, [], []⟩

inductive WsEv where
  /-- the blocked `ReadMessage` returns one frame -/
  | frameArrive (f : List Char)
  /-- the blocked `ReadMessage` returns an error (`closedErr`: whether it
  satisfies `isWebsocketClosed`) -/
  | readFail (closedErr : Bool)
  /-- the read loop enqueues the next decoded message (or finishes the
  batch); blocks while the channel holds 10 values -/
  | enqStep
  /-- rendezvous on the unbuffered `heartbeat` channel: the loop's send
  meets the watcher's receive, which resets the timer -/
  | hbMeet
  | rlCloseChk
  | rlCloseSend (o : COut)
  | rlCloseNet
  | rlCloseCncl
  /-- the deferred timer drain; blocks forever when the timer was already
  consumed (`Stop` returned false and `timer.C` is empty) -/
  | rlDrain
  | rlCloseHb
  /-- The `run` enqueues the masked final error -/
  | runEnq
  /-- the 30-second timer fires: a value appears in `timer.C` -/
  | timerFire
  | wCtxDone
  /-- the watcher receives the fire value from `timer.C` -/
  | wTimerTake
  /-- the watcher receives the zero value from the closed `heartbeat`
  channel and resets the timer -/
  | wHbClosedReset
  | wCloseChk
  | wCloseSend (o : COut)
  | wCloseNet
  | wCloseCncl
  /-- the watcher enqueues `ErrNoHeartbeat` -/
  | wEnq
  | appCloseCall
  | appCloseSend (o : COut)
  /-- The `ws.Close()` inside the application's `Close` (`closeErr`: whether it
  returns an error, yielding `ErrClosingConnection`) -/
  | appCloseNet (closeErr : Bool)
  | appCloseCncl
  /-- The `ReadMsg`; when both select branches are ready, `useQueue` picks -/
  | appReadCall (useQueue : Bool)
  | appWriteCall
  | appWriteNet (o : WOut)

def wsStep (s : WsSt) (e : WsEv) : Option WsSt :=
  match e with
  | .frameArrive f =>
    match s.rl with
    | .reading =>
      if s.netClosed then none
      else
        match parseMessage f with
        | none => some { s with rl := .panicked }
        | some (_, _, some pe) => some { s with rl := .closeChk pe }
        | some (mt, payload, none) =>
          match mt with
          | .heartbeat => some { s with rl := .hbSend }
          | .dataFrame =>
            match jsonUnmarshalStringArr payload with
            | some msgs => some { s with rl := .enqueue msgs }
            | none => some { s with rl := .closeChk .jsonDecodeErr }
          | _ => some { s with rl := .reading }
    | _ => none
  | .readFail closedErr =>
    match s.rl with
    | .reading =>
      some { s with
        rl := .closeChk (if closedErr then .closedConnectionNoFrame else .readNetworkErr) }
    | _ => none
  | .enqStep =>
    match s.rl with
    | .enqueue [] => some { s with rl := .reading }
    | .enqueue (m :: ms) =>
      if s.queue.length < 10 then
        some { s with
          queue := s.queue ++ [.msg m]
          hist := s.hist ++ [(.loopP, .msg m)]
          rl := .enqueue ms }
      else none
    | _ => none
  | .hbMeet =>
    match s.rl, s.w with
    | .hbSend, .sel => some { s with timerActive := true, rl := .reading }
    | _, _ => none
  | .rlCloseChk =>
    match s.rl with
    | .closeChk e => some { s with rl := if s.cancelled then .drain e else .closeSend e }
    | _ => none
  | .rlCloseSend o =>
    match s.rl with
    | .closeSend e =>
      if s.netClosed then some { s with cancelled := true, rl := .drain e }
      else
        match o with
        | .sendErrClosed => some { s with cancelled := true, rl := .drain e }
        | _ => some { s with rl := .closeNet e }
    | _ => none
  | .rlCloseNet =>
    match s.rl with
    | .closeNet e => some { s with netClosed := true, rl := .closeCncl e }
    | _ => none
  | .rlCloseCncl =>
    match s.rl with
    | .closeCncl e => some { s with cancelled := true, rl := .drain e }
    | _ => none
  | .rlDrain =>
    match s.rl with
    | .drain e =>
      if s.timerActive then some { s with timerActive := false, rl := .closeHb e }
      else if s.timerChan then some { s with timerChan := false, rl := .closeHb e }
      else none
    | _ => none
  | .rlCloseHb =>
    match s.rl with
    | .closeHb e => some { s with hbClosed := true, rl := .returned e }
    | _ => none
  | .runEnq =>
    match s.rl with
    | .returned e =>
      if s.queue.length < 10 then
        some { s with
          queue := s.queue ++ [.err (maskCtxCancelled s.cancelled e)]
          hist := s.hist ++ [(.runP, .err (maskCtxCancelled s.cancelled e))]
          rl := .exited }
      else none
    | _ => none
  | .timerFire =>
    if s.timerActive then some { s with timerActive := false, timerChan := true } else none
  | .wCtxDone =>
    match s.w with
    | .sel => if s.cancelled then some { s with w := .done } else none
    | _ => none
  | .wTimerTake =>
    match s.w with
    | .sel => if s.timerChan then some { s with timerChan := false, w := .closeChk } else none
    | _ => none
  | .wHbClosedReset =>
    match s.w with
    | .sel => if s.hbClosed then some { s with timerActive := true } else none
    | _ => none
  | .wCloseChk =>
    match s.w with
    | .closeChk => some { s with w := if s.cancelled then .enqErr else .closeSend }
    | _ => none
  | .wCloseSend o =>
    match s.w with
    | .closeSend =>
      if s.netClosed then some { s with cancelled := true, w := .enqErr }
      else
        match o with
        | .sendErrClosed => some { s with cancelled := true, w := .enqErr }
        | _ => some { s with w := .closeNet }
    | _ => none
  | .wCloseNet =>
    match s.w with
    | .closeNet => some { s with netClosed := true, w := .closeCncl }
    | _ => none
  | .wCloseCncl =>
    match s.w with
    | .closeCncl => some { s with cancelled := true, w := .enqErr }
    | _ => none
  | .wEnq =>
    match s.w with
    | .enqErr =>
      if s.queue.length < 10 then
        some { s with
          queue := s.queue ++ [.err .noHeartbeat]
          hist := s.hist ++ [(.watcherP, .err .noHeartbeat)]
          w := .done }
      else none
    | _ => none
  | .appCloseCall =>
    match s.app with
    | .idle =>
      if s.cancelled then some { s with appLog := s.appLog ++ [.closeRet none] }
      else some { s with app := .closeSend }
    | _ => none
  | .appCloseSend o =>
    match s.app with
    | .closeSend =>
      if s.netClosed then
        some { s with
          cancelled := true
          app := .idle
          appLog := s.appLog ++ [.closeRet none] }
      else
        match o with
        | .sendErrClosed =>
          some { s with
            cancelled := true
            app := .idle
            appLog := s.appLog ++ [.closeRet none] }
        | _ => some { s with app := .closeNet }
    | _ => none
  | .appCloseNet closeErr =>
    match s.app with
    | .closeNet => some { s with netClosed := true, app := .closeCncl closeErr }
    | _ => none
  | .appCloseCncl =>
    match s.app with
    | .closeCncl closeErr =>
      some { s with
        cancelled := true
        app := .idle
        appLog := s.appLog ++ [.closeRet (if closeErr then some .closingConnection else none)] }
    | _ => none
  | .appReadCall useQueue =>
    match s.app with
    | .idle =>
      match s.queue with
      | [] =>
        if s.cancelled then
          some { s with appLog := s.appLog ++ [.readRet (.error .closedConnection)] }
        else none
      | v :: rest =>
        if s.cancelled ∧ ¬useQueue then
          some { s with appLog := s.appLog ++ [.readRet (.error .closedConnection)] }
        else
          some { s with
            queue := rest
            appLog := s.appLog ++ [.readRet (match v with
              | .msg m => .ok m
              | .err er => .error er)] }
    | _ => none
  | .appWriteCall =>
    match s.app with
    | .idle =>
      if s.cancelled then
        some { s with appLog := s.appLog ++ [.writeRet (some .closedConnection)] }
      else some { s with app := .writeNet }
    | _ => none
  | .appWriteNet o =>
    match s.app with
    | .writeNet =>
      match o with
      | .writeOk => some { s with app := .idle, appLog := s.appLog ++ [.writeRet none] }
      | .writeFail closedType =>
        if s.cancelled then
          some { s with
            app := .idle
            appLog := s.appLog ++ [.writeRet (some .closedConnection)] }
        else
          some { s with
            cancelled := true
            app := .idle
            appLog := s.appLog ++ [.writeRet (some (if closedType then .closedConnectionWrapped
              else .writeNetworkErr))] }
    | _ => none

/-- Run a schedule from the initial state; disabled events are skipped
(they model operations that would block or are not at that program
point). -/
def wsExec (evs : List WsEv) : WsSt :=
  evs.foldl (fun s e => (wsStep s e).getD s) wsInit

/-! ## The `xhrConn` labelled transition system

Much simpler: no heartbeat watcher, no timer, no persistent handle —
`Close` is a single cancellation step; the read loop is a polling loop. -/

/-- Program counter of the `run`/`readLoop` goroutine of `xhrConn`. -/
inductive XRlPC where
  | reading
  | enqueue (pending : List (List Char))
  | closing (e : Err)
  | returned (e : Err)
  | exited
  | panicked

def XRlPC.isExited : XRlPC → Bool
  | .exited => true
  | _ => false

inductive XAPC where
  | idle
  | writeNet
deriving DecidableEq

/-- Outcome of the `xhr_send` POST in `xhrConn.WriteMsg`. -/
inductive XWOut where
  | netFail (isCtx : Bool)
  | status (code : Nat)

structure XhrSt where
  cancelled : Bool
  queue : List InVal
  rl : XRlPC
  app : XAPC
  hist : List (Producer × InVal)
  appLog : List AppRes

def xhrInit : XhrSt := ⟨false, [], .reading, .idle, [], []⟩

inductive XhrEv where
  /-- one poll request completes with a status and body -/
  | pollResp (status : Nat) (body : List Char)
  /-- one poll request fails (`isCtx`: with the context's own error) -/
  | pollFail (isCtx : Bool)
  | enqStep
  /-- the deferred `conn.Close()` (a bare `cncl()`) before `run` returns -/
  | rlClose
  | runEnq
  /-- The `xhrConn.Close` is a single `cncl()` returning nil -/
  | appCloseCall
  | appReadCall (useQueue : Bool)
  | appWriteCall
  | appWriteResp (o : XWOut)

def xhrStep (s : XhrSt) (e : XhrEv) : Option XhrSt :=
  match e with
  | .pollResp status body =>
    match s.rl with
    | .reading =>
      if status = 200 then
        match parseMessage body with
        | none => some { s with rl := .panicked }
        | some (_, _, some pe) => some { s with rl := .closing pe }
        | some (mt, payload, none) =>
          match mt with
          | .heartbeat => some { s with rl := .reading }
          | .dataFrame =>
            match jsonUnmarshalStringArr payload with
            | some msgs => some { s with rl := .enqueue msgs }
            | none => some { s with rl := .closing .jsonDecodeErr }
          | _ => some { s with rl := .reading }
      else if status = 404 then some { s with rl := .closing .closedConnectionNoFrame }
      else some { s with rl := .closing (.unexpectedResponse status) }
    | _ => none
  | .pollFail isCtx =>
    match s.rl with
    | .reading =>
      some { s with rl := .closing (if isCtx then .ctxCanceled else .readNetworkErr) }
    | _ => none
  | .enqStep =>
    match s.rl with
    | .enqueue [] => some { s with rl := .reading }
    | .enqueue (m :: ms) =>
      if s.queue.length < 10 then
        some { s with
          queue := s.queue ++ [.msg m]
          hist := s.hist ++ [(.loopP, .msg m)]
          rl := .enqueue ms }
      else none
    | _ => none
  | .rlClose =>
    match s.rl with
    | .closing e => some { s with cancelled := true, rl := .returned e }
    | _ => none
  | .runEnq =>
    match s.rl with
    | .returned e =>
      if s.queue.length < 10 then
        some { s with
          queue := s.queue ++ [.err (maskCtxCancelled s.cancelled e)]
          hist := s.hist ++ [(.runP, .err (maskCtxCancelled s.cancelled e))]
          rl := .exited }
      else none
    | _ => none
  | .appCloseCall =>
    match s.app with
    | .idle => some { s with cancelled := true, appLog := s.appLog ++ [.closeRet none] }
    | _ => none
  | .appReadCall useQueue =>
    match s.app with
    | .idle =>
      match s.queue with
      | [] =>
        if s.cancelled then
          some { s with appLog := s.appLog ++ [.readRet (.error .closedConnection)] }
        else none
      | v :: rest =>
        if s.cancelled ∧ ¬useQueue then
          some { s with appLog := s.appLog ++ [.readRet (.error .closedConnection)] }
        else
          some { s with
            queue := rest
            appLog := s.appLog ++ [.readRet (match v with
              | .msg m => .ok m
              | .err er => .error er)] }
    | _ => none
  | .appWriteCall =>
    match s.app with
    | .idle =>
      if s.cancelled then
        some { s with appLog := s.appLog ++ [.writeRet (some .closedConnection)] }
      else some { s with app := .writeNet }
    | _ => none
  | .appWriteResp o =>
    match s.app with
    | .writeNet =>
      match o with
      | .netFail isCtx =>
        some { s with
          cancelled := true
          app := .idle
          appLog := s.appLog ++ [.writeRet (some (if isCtx then .closedConnection
            else .writeNetworkErr))] }
      | .status code =>
        if code = 204 then some { s with app := .idle, appLog := s.appLog ++ [.writeRet none] }
        else if code = 404 then
          some { s with
            cancelled := true
            app := .idle
            appLog := s.appLog ++ [.writeRet (some .closedConnection)] }
        else
          some { s with
            cancelled := true
            app := .idle
            appLog := s.appLog ++ [.writeRet (some (.unexpectedResponse code))] }
    | _ => none

def xhrExec (evs : List XhrEv) : XhrSt :=
  evs.foldl (fun s e => (xhrStep s e).getD s) xhrInit

/-! ### Observables over the ghost history -/

def isErrVal : InVal → Bool
  | .err _ => true
  | .msg _ => false

/-- Number of error values ever enqueued. -/
def countErrs (h : List (Producer × InVal)) : Nat :=
  (h.filter (fun p => isErrVal p.2)).length

/-- Whether nothing at all was enqueued after the first error value. -/
def nothingAfterFirstErr : List (Producer × InVal) → Bool
  | [] => true
  | (_, .err _) :: t => t.isEmpty
  | _ :: t => nothingAfterFirstErr t

def runCount (h : List (Producer × InVal)) : Nat :=
  (h.filter (fun p => p.1 = Producer.runP)).length

def watcherCount (h : List (Producer × InVal)) : Nat :=
  (h.filter (fun p => p.1 = Producer.watcherP)).length

/-- Every enqueued value is a message from the read loop or an error from
`run` or the watcher. -/
def entryOK : Producer × InVal → Bool
  | (.loopP, .msg _) => true
  | (.runP, .err _) => true
  | (.watcherP, .err _) => true
  | _ => false

/-- No message (read-loop entry) after `run`'s final error. -/
def noLoopAfterRun : List (Producer × InVal) → Bool
  | [] => true
  | (.runP, _) :: t => t.all (fun p => p.1 ≠ Producer.loopP)
  | _ :: t => noLoopAfterRun t

/-- Nothing at all after `run`'s final error. -/
def nothingAfterRun : List (Producer × InVal) → Bool
  | [] => true
  | (.runP, _) :: t => t.isEmpty
  | _ :: t => nothingAfterRun t

/-- A successful message read after a completed `Close` call. -/
def readOkAfterClose : List AppRes → Bool
  | [] => false
  | .closeRet _ :: t => t.any (fun r => match r with
      | .readRet (.ok _) => true
      | _ => false)
  | _ :: t => readOkAfterClose t

/-- The inductive invariant of the `wsConn` system: entries are well
formed, `run` contributes at most one (error) entry and none before the
loop has exited, the watcher contributes at most one and none before it is
done, and no read-loop entry follows `run`'s final one. -/
def WsInv (s : WsSt) : Prop :=
  s.hist.all entryOK = true ∧
  runCount s.hist ≤ 1 ∧
  (s.rl.isExited = false → runCount s.hist = 0) ∧
  watcherCount s.hist ≤ 1 ∧
  (s.w ≠ WPC.done → watcherCount s.hist = 0) ∧
  noLoopAfterRun s.hist = true

/-- The inductive invariant of the `xhrConn` system: only the read loop
(messages) and `run` (the single final error) produce entries, and nothing
follows `run`'s entry. -/
def XhrInv (s : XhrSt) : Prop :=
  s.hist.all entryOK = true ∧
  runCount s.hist ≤ 1 ∧
  (s.rl.isExited = false → runCount s.hist = 0) ∧
  watcherCount s.hist = 0 ∧
  nothingAfterRun s.hist = true

/-! # Theorems -/

/-- The `bytes.TrimSpace` gives an empty result exactly when every character is
Unicode whitespace. -/
theorem trimSpace_eq_nil_iff (l : List Char) :
    trimSpace l = [] ↔ l.all isUnicodeSpace = true := by
  unfold trimSpace
  rw [List.reverse_eq_nil_iff, List.dropWhile_eq_nil_iff, List.all_eq_true]
  constructor
  · intro h x hx
    by_cases hxs : isUnicodeSpace x = true
    · exact hxs
    · have hmem : x ∈ l.dropWhile isUnicodeSpace := by
        have := List.takeWhile_append_dropWhile (p := isUnicodeSpace) (l := l)
        rw [← this] at hx
        rcases List.mem_append.mp hx with h1 | h1
        · exact absurd (List.mem_takeWhile_imp h1) hxs
        · exact h1
      exact h x (List.mem_reverse.mpr hmem)
  · intro h x hx
    exact h x (List.dropWhile_subset _ (List.mem_reverse.mp hx))

/-- The length test `len(bytes.TrimSpace(rest)) != 0` from `parseMessage`,
restated through `trimSpace_eq_nil_iff`. -/
theorem trimSpace_length_eq_zero_iff (l : List Char) :
    ((trimSpace l).length = 0) ↔ l.all isUnicodeSpace = true := by
  rw [List.length_eq_zero]
  exact trimSpace_eq_nil_iff l

/-- On any non-empty frame the parser returns an actual result triple. -/
theorem parseMessage_isSome_of_ne_nil (d : List Char) (hd : d ≠ []) :
    (parseMessage d).isSome = true := by
  match d with
  | [] => exact absurd rfl hd
  | c :: rest =>
    simp only [parseMessage]
    repeat' split <;> try simp

/-- C9: the frame parser is only defined on non-empty input.  `parseMessage`
reads `data[0]` without a length check; on the empty frame this is an
out-of-bounds access (modelled as `none`, a runtime panic), and on every
non-empty frame the parser returns an actual result triple. -/
theorem parseMessage_empty_panics :
    parseMessage [] = none ∧
    ∀ d : List Char, d ≠ [] → (parseMessage d).isSome = true :=
  ⟨rfl, parseMessage_isSome_of_ne_nil⟩

/-- Witness for C9 at concrete inputs. -/
theorem parseMessage_empty_panics_witness :
    parseMessage [] = none ∧ (parseMessage ['h']).isSome = true :=
  ⟨parseMessage_empty_panics.1, parseMessage_empty_panics.2 ['h'] (by decide)⟩

/-- C5: a `h` (or `o`) frame parses successfully with no payload exactly
when the remainder is whitespace-only; any non-whitespace remainder fails
with the bare invalid-response error while still carrying the type; and any
frame whose leading byte is none of `h`, `a`, `o`, `c` yields the
`Unhandled` type and an invalid-response error naming the unknown tag. -/
theorem parseMessage_heartbeat_open_unknown (rest : List Char) :
    (rest.all isUnicodeSpace = true →
      parseMessage ('h' :: rest) = some (.heartbeat, [], none) ∧
      parseMessage ('o' :: rest) = some (.openFrame, [], none)) ∧
    (rest.all isUnicodeSpace = false →
      parseMessage ('h' :: rest) = some (.heartbeat, [], some .invalidResponse) ∧
      parseMessage ('o' :: rest) = some (.openFrame, [], some .invalidResponse)) ∧
    (∀ c : Char, c ≠ 'h' → c ≠ 'a' → c ≠ 'o' → c ≠ 'c' →
      parseMessage (c :: rest) = some (.unhandled, [], some (.invalidResponseUnknownType c))) := by
  refine ⟨?_, ?_, ?_⟩
  · intro hws
    have hlen : (trimSpace rest).length = 0 := (trimSpace_length_eq_zero_iff rest).mpr hws
    constructor <;> simp [parseMessage, hlen]
  · intro hws
    have hlen : (trimSpace rest).length ≠ 0 := by
      intro h
      rw [(trimSpace_length_eq_zero_iff rest).mp h] at hws
      cases hws
    constructor <;> simp [parseMessage, hlen]
  · intro c hc1 hc2 hc3 hc4
    simp [parseMessage, hc1, hc2, hc3, hc4]

/-- Witness for C5 at concrete inputs: `"h "`, `"o"`, `"hx"`, `"ox"`, `"z"`. -/
theorem parseMessage_heartbeat_open_unknown_witness :
    (parseMessage ['h', ' '] = some (.heartbeat, [], none) ∧
      parseMessage ['o', ' '] = some (.openFrame, [], none)) ∧
    (parseMessage ['h', 'x'] = some (.heartbeat, [], some .invalidResponse) ∧
      parseMessage ['o', 'x'] = some (.openFrame, [], some .invalidResponse)) ∧
    parseMessage ['z'] = some (.unhandled, [], some (.invalidResponseUnknownType 'z')) :=
  ⟨(parseMessage_heartbeat_open_unknown [' ']).1 (by decide),
   (parseMessage_heartbeat_open_unknown ['x']).2.1 (by decide),
   (parseMessage_heartbeat_open_unknown []).2.2 'z'
     (by decide) (by decide) (by decide) (by decide)⟩

/-- Unfolding of the `c` branch of `parseMessage`. -/
theorem parseMessage_close_unfold (rest : List Char) :
    parseMessage ('c' :: rest) =
      match jsonUnmarshalIfaceArr rest with
      | some [v0, v1] => some (.closeFrame, [], some (.closedByRemote (some (v0, v1))))
      | _ => some (.closeFrame, [], some (.closedByRemote none)) := by
  simp [parseMessage]

/-- C4: every `c` frame produces the Close type together with an error,
never a successful parse.  When the remainder unmarshals as a two-element
JSON array the error is closed-by-remote embedding the two parsed values;
for a remainder that unmarshals with a different arity, or does not
unmarshal at all, the error is closed-by-remote with no embedded data. -/
theorem parseMessage_close_always_errors (rest : List Char) :
    (∃ e : Err, parseMessage ('c' :: rest) = some (.closeFrame, [], some e)) ∧
    (∀ v0 v1 : JsonVal, jsonUnmarshalIfaceArr rest = some [v0, v1] →
      parseMessage ('c' :: rest)
        = some (.closeFrame, [], some (.closedByRemote (some (v0, v1))))) ∧
    (∀ vs : List JsonVal, jsonUnmarshalIfaceArr rest = some vs → vs.length ≠ 2 →
      parseMessage ('c' :: rest) = some (.closeFrame, [], some (.closedByRemote none))) ∧
    (jsonUnmarshalIfaceArr rest = none →
      parseMessage ('c' :: rest) = some (.closeFrame, [], some (.closedByRemote none))) := by
  refine ⟨?_, ?_, ?_, ?_⟩
  · rw [parseMessage_close_unfold]
    split
    · exact ⟨_, rfl⟩
    · exact ⟨_, rfl⟩
  · intro v0 v1 hu
    rw [parseMessage_close_unfold, hu]
  · intro vs hu hlen
    rw [parseMessage_close_unfold, hu]
    match vs, hlen with
    | [], _ => rfl
    | [_], _ => rfl
    | [v0, v1], hlen => exact absurd rfl hlen
    | _ :: _ :: _ :: _, _ => rfl
  · intro hu
    rw [parseMessage_close_unfold, hu]

/-- Witness for C4 at concrete inputs: the spec's example close frame
`c[3000,"Go away!"]` and the bare `c` frame. -/
theorem parseMessage_close_always_errors_witness :
    parseMessage ('c' :: "[3000,\"Go away!\"]".data)
      = some (.closeFrame, [], some (.closedByRemote
          (some (.num "3000".data, .str "Go away!".data)))) ∧
    parseMessage ['c'] = some (.closeFrame, [], some (.closedByRemote none)) :=
  ⟨(parseMessage_close_always_errors "[3000,\"Go away!\"]".data).2.1
      (.num "3000".data) (.str "Go away!".data) (by rfl),
   (parseMessage_close_always_errors []).2.2.2 (by rfl)⟩

theorem hexDigitVal_hexDigitChar : ∀ n < 16, hexDigitVal (hexDigitChar n) = some n := by decide

theorem bindConsOpt (o : Option (List Char × List Char)) (c : Char) :
    (o.bind fun p => some (c :: p.1, p.2)) = o.map fun p => (c :: p.1, p.2) := by
  cases o <;> rfl

theorem decodeStringBody_escChar (c : Char) (f : Nat) (tail : List Char) :
    decodeStringBody (f + 1) (escChar c ++ tail)
      = (decodeStringBody f tail).map fun p => (c :: p.1, p.2) := by
  by_cases h1 : c = '"'
  · subst h1
    show (decodeStringBody f tail).bind (fun p => some ('"' :: p.1, p.2)) = _
    exact bindConsOpt ..
  by_cases h2 : c = '\\'
  · subst h2
    show (decodeStringBody f tail).bind (fun p => some ('\\' :: p.1, p.2)) = _
    exact bindConsOpt ..
  by_cases h3 : c = '\n'
  · subst h3
    show (decodeStringBody f tail).bind (fun p => some ('\n' :: p.1, p.2)) = _
    exact bindConsOpt ..
  by_cases h4 : c = '\r'
  · subst h4
    show (decodeStringBody f tail).bind (fun p => some ('\r' :: p.1, p.2)) = _
    exact bindConsOpt ..
  by_cases h5 : c = '\t'
  · subst h5
    show (decodeStringBody f tail).bind (fun p => some ('\t' :: p.1, p.2)) = _
    exact bindConsOpt ..
  by_cases h6 : c.toNat < 0x20
  · have hesc : escChar c
        = ['\\', 'u', '0', '0', hexDigitChar (c.toNat / 16), hexDigitChar (c.toNat % 16)] := by
      simp [escChar, h1, h2, h3, h4, h5, h6]
    have hx : hexDigitVal (hexDigitChar (c.toNat / 16)) = some (c.toNat / 16) :=
      hexDigitVal_hexDigitChar _ (by omega)
    have hy : hexDigitVal (hexDigitChar (c.toNat % 16)) = some (c.toNat % 16) :=
      hexDigitVal_hexDigitChar _ (Nat.mod_lt _ (by norm_num))
    have hcode : c.toNat / 16 * 16 + c.toNat % 16 = c.toNat := by omega
    have h0 : hexDigitVal '0' = some 0 := rfl
    rw [hesc]
    simp only [List.cons_append]
    simp only [decodeStringBody, hx, hy, h0, Option.bind_eq_bind, Option.some_bind, List.nil_append]
    try simp only [Nat.zero_mul, Nat.zero_add]
    rw [hcode]
    rw [if_neg (by omega), if_neg (by omega)]
    rw [Char.ofNat_toNat]
    exact bindConsOpt ..
  by_cases h7 : c = '<'
  · subst h7
    show (decodeStringBody f tail).bind (fun p => some (Char.ofNat 60 :: p.1, p.2)) = _
    rw [show Char.ofNat 60 = '<' from rfl]
    exact bindConsOpt ..
  by_cases h8 : c = '>'
  · subst h8
    show (decodeStringBody f tail).bind (fun p => some (Char.ofNat 62 :: p.1, p.2)) = _
    rw [show Char.ofNat 62 = '>' from rfl]
    exact bindConsOpt ..
  by_cases h9 : c = '&'
  · subst h9
    show (decodeStringBody f tail).bind (fun p => some (Char.ofNat 38 :: p.1, p.2)) = _
    rw [show Char.ofNat 38 = '&' from rfl]
    exact bindConsOpt ..
  by_cases h10 : c.toNat = 0x2028
  · have hesc : escChar c = ['\\', 'u', '2', '0', '2', '8'] := by
      simp [escChar, h1, h2, h3, h4, h5, h6, h7, h8, h9, h10]
    have e2 : hexDigitVal '2' = some 2 := rfl
    have e0 : hexDigitVal '0' = some 0 := rfl
    have e8 : hexDigitVal '8' = some 8 := rfl
    rw [hesc]
    simp only [List.cons_append]
    simp only [decodeStringBody, e2, e0, e8, Option.bind_eq_bind, Option.some_bind, List.nil_append]
    rw [if_neg (by omega), if_neg (by omega)]
    rw [show (2 * 4096 + 0 * 256 + 2 * 16 + 8 : Nat) = c.toNat from by omega, Char.ofNat_toNat]
    exact bindConsOpt ..
  by_cases h11 : c.toNat = 0x2029
  · have hesc : escChar c = ['\\', 'u', '2', '0', '2', '9'] := by
      simp [escChar, h1, h2, h3, h4, h5, h6, h7, h8, h9, h10, h11]
    have e2 : hexDigitVal '2' = some 2 := rfl
    have e0 : hexDigitVal '0' = some 0 := rfl
    have e9 : hexDigitVal '9' = some 9 := rfl
    rw [hesc]
    simp only [List.cons_append]
    simp only [decodeStringBody, e2, e0, e9, Option.bind_eq_bind, Option.some_bind, List.nil_append]
    rw [if_neg (by omega), if_neg (by omega)]
    rw [show (2 * 4096 + 0 * 256 + 2 * 16 + 9 : Nat) = c.toNat from by omega, Char.ofNat_toNat]
    exact bindConsOpt ..
  · have hesc : escChar c = [c] := by
      simp [escChar, h1, h2, h3, h4, h5, h6, h7, h8, h9, h10, h11]
    rw [hesc]
    try simp only [List.cons_append, List.nil_append]
    rw [decodeStringBody.eq_def]
    split
    all_goals try (exfalso; simp_all; done)
    next fuel2 c2 rest2 a1 a2 a3 heq1 heq2 =>
      injection heq2 with hc ht
      subst hc
      subst ht
      have hfl : fuel2 = f := by omega
      subst hfl
      rw [if_neg h6]
      exact bindConsOpt ..


theorem escChar_length_pos (c : Char) : 1 ≤ (escChar c).length := by
  unfold escChar
  split_ifs <;> simp

theorem length_le_flatMap_escChar (s : List Char) :
    s.length ≤ (s.flatMap escChar).length := by
  induction s with
  | nil => simp
  | cons c t ih =>
    rw [List.flatMap_cons, List.length_append, List.length_cons]
    have := escChar_length_pos c
    omega

theorem decodeStringBody_enc (s : List Char) : ∀ (fuel : Nat) (tail : List Char),
    s.length + 1 ≤ fuel →
    decodeStringBody fuel (s.flatMap escChar ++ '"' :: tail) = some (s, tail) := by
  induction s with
  | nil =>
    intro fuel tail h
    match fuel, h with
    | f + 1, _ => rfl
  | cons c t ih =>
    intro fuel tail h
    match fuel, h with
    | f + 1, h =>
      rw [List.flatMap_cons, List.append_assoc, decodeStringBody_escChar,
        ih f tail (by simp at h; omega)]
      rfl

theorem jsonSkipWs_cons_of_neg (c : Char) (l : List Char) (h : jsonIsSpace c = false) :
    jsonSkipWs (c :: l) = c :: l := by
  simp [jsonSkipWs, List.dropWhile_cons, h]

/-- One-step unfolding of `decodeStrElems` on a quote-headed input. -/
theorem decodeStrElems_quote (f : Nat) (rest : List Char) :
    decodeStrElems (f + 1) ('"' :: rest)
      = (decodeStringBody (rest.length + 1) rest).bind (fun sr =>
          match jsonSkipWs sr.2 with
          | ',' :: r2 => (decodeStrElems f r2).bind fun ssr => some (sr.1 :: ssr.1, ssr.2)
          | ']' :: r2 => some ([sr.1], r2)
          | _ => none) := rfl

theorem decodeStrElems_enc : ∀ (msgs : List (List Char)) (fuel : Nat) (tail : List Char),
    msgs ≠ [] → msgs.length + 1 ≤ fuel →
    decodeStrElems fuel (encElems msgs ++ ']' :: tail) = some (msgs, tail) := by
  intro msgs
  induction msgs with
  | nil => intro fuel tail h; exact absurd rfl h
  | cons m ms ih =>
    intro fuel tail _ hf
    match fuel, hf with
    | f + 1, hf =>
      cases ms with
      | nil =>
        show decodeStrElems (f + 1) (encodeStringGo m ++ ']' :: tail) = some ([m], tail)
        rw [encodeStringGo]
        rw [show ('"' :: (m.flatMap escChar ++ ['"'])) ++ ']' :: tail
              = '"' :: (m.flatMap escChar ++ '"' :: ']' :: tail) by simp]
        rw [decodeStrElems_quote]
        rw [decodeStringBody_enc m _ _ (by
          rw [List.length_append, List.length_cons]
          have := length_le_flatMap_escChar m
          omega)]
        rw [Option.some_bind]
        rw [show jsonSkipWs (']' :: tail) = ']' :: tail from
          jsonSkipWs_cons_of_neg _ _ (by rfl)]
        rfl
      | cons m2 ms2 =>
        show decodeStrElems (f + 1)
            ((encodeStringGo m ++ ',' :: encElems (m2 :: ms2)) ++ ']' :: tail)
            = some (m :: m2 :: ms2, tail)
        rw [encodeStringGo]
        rw [show ('"' :: (m.flatMap escChar ++ ['"']) ++ ',' :: encElems (m2 :: ms2)) ++ ']' :: tail
              = '"' :: (m.flatMap escChar ++ '"' :: ',' :: (encElems (m2 :: ms2) ++ ']' :: tail)) by simp]
        rw [decodeStrElems_quote]
        rw [decodeStringBody_enc m _ _ (by
          rw [List.length_append, List.length_cons]
          have := length_le_flatMap_escChar m
          omega)]
        rw [Option.some_bind]
        rw [show jsonSkipWs (',' :: (encElems (m2 :: ms2) ++ ']' :: tail))
              = ',' :: (encElems (m2 :: ms2) ++ ']' :: tail) from
          jsonSkipWs_cons_of_neg _ _ (by rfl)]
        show (decodeStrElems f (encElems (m2 :: ms2) ++ ']' :: tail)).bind
            (fun ssr => some (m :: ssr.1, ssr.2)) = some (m :: m2 :: ms2, tail)
        rw [ih f tail (by simp) (by simp only [List.length_cons] at hf ⊢; omega)]
        rfl

theorem two_le_encodeStringGo_length (m : List Char) : 2 ≤ (encodeStringGo m).length := by
  simp [encodeStringGo]

theorem length_le_encElems_length_add_one (msgs : List (List Char)) :
    msgs.length ≤ (encElems msgs).length + 1 := by
  induction msgs with
  | nil => simp [encElems]
  | cons m ms ih =>
    cases ms with
    | nil => simp [encElems]
    | cons m2 ms2 =>
      show (m :: m2 :: ms2).length
          ≤ (encodeStringGo m ++ ',' :: encElems (m2 :: ms2)).length + 1
      rw [List.length_append, List.length_cons, List.length_cons, List.length_cons]
      have h1 := two_le_encodeStringGo_length m
      simp only [List.length_cons] at ih
      omega

/-- One-step unfolding of the unmarshaller on a `["`-headed input. -/
theorem jsonUnmarshalStringArr_bracket_quote (X : List Char) :
    jsonUnmarshalStringArr ('[' :: '"' :: X)
      = match decodeStrElems (('[' :: '"' :: X).length + 1) ('"' :: X) with
        | some (ss, rem) => if (jsonSkipWs rem).isEmpty then some ss else none
        | none => none := rfl

/-- Unmarshalling inverts marshalling for every batch of messages: the
`json.Unmarshal` into `[]string` performed by the read loops recovers
exactly the batch that `json.Marshal` in `WriteMsg` produced. -/
theorem jsonUnmarshalStringArr_marshal (msgs : List (List Char)) :
    jsonUnmarshalStringArr (goJsonMarshalStrings msgs) = some msgs := by
  cases msgs with
  | nil => rfl
  | cons m ms =>
    obtain ⟨T, hsh⟩ : ∃ T, encElems (m :: ms) ++ ']' :: [] = '"' :: T := by
      cases ms with
      | nil => exact ⟨m.flatMap escChar ++ ['"', ']'], by simp [encElems, encodeStringGo]⟩
      | cons m2 ms2 =>
        exact ⟨m.flatMap escChar ++ '"' :: ',' :: (encElems (m2 :: ms2) ++ [']']),
          by simp [encElems, encodeStringGo]⟩
    show jsonUnmarshalStringArr ('[' :: (encElems (m :: ms) ++ ']' :: [])) = some (m :: ms)
    rw [hsh, jsonUnmarshalStringArr_bracket_quote, ← hsh]
    rw [decodeStrElems_enc (m :: ms) _ [] (by simp) (by
      simp only [List.length_cons, List.length_append]
      have := length_le_encElems_length_add_one (m :: ms)
      simp only [List.length_cons] at this
      omega)]
    rfl

/-- C8: serializing any finite ordered sequence of messages the way
`WriteMsg` does (JSON-encode as an array of strings) and parsing the result
as a Data frame the way the read loops do (strip the `a` tag, JSON-decode
the remainder into strings) reproduces exactly the original sequence in the
original order. -/
theorem writeMsg_readLoop_roundTrip (msgs : List (List Char)) :
    parseMessage ('a' :: goJsonMarshalStrings msgs)
      = some (.dataFrame, goJsonMarshalStrings msgs, none) ∧
    jsonUnmarshalStringArr (goJsonMarshalStrings msgs) = some msgs := by
  constructor
  · simp [parseMessage]
  · exact jsonUnmarshalStringArr_marshal msgs

/-! ### Transport address builder, identifier generation, connect policy -/

theorem generateIDs_serverID (c : ClientState) (ri : Nat) (gs : List Char) :
    (generateIDs c ri gs).serverID
      = if c.serverID = [] then paddedRandomIntn 999 ri else c.serverID := by
  unfold generateIDs
  split <;> (dsimp only; split <;> simp_all)

theorem generateIDs_noWebsocket (c : ClientState) (ri : Nat) (gs : List Char) :
    (generateIDs c ri gs).noWebsocket = c.noWebsocket := by
  unfold generateIDs
  split <;> (dsimp only; split <;> rfl)

/-- What `ConnectContext` does to the stored server ID: nothing on an info
fetch failure; on success, a fresh padded random ID exactly when the field
was empty. -/
theorem connectContext_serverID (c : ClientState) (infoRes : Except Err ServerInfo)
    (ri : Nat) (gs : List Char) (w x : Except Err Unit) :
    (connectContext c infoRes ri gs w x).client.serverID
      = match infoRes with
        | .error _ => c.serverID
        | .ok _ => if c.serverID = [] then paddedRandomIntn 999 ri else c.serverID := by
  rcases infoRes with e | info
  · simp only [connectContext]
    split <;> rfl
  · simp only [connectContext]
    rcases w with we | wu <;> rcases x with xe | xu <;> split <;>
      simp [generateIDs_serverID]

/-- Exhaustive check of `paddedRandomIntn 999` over its whole domain. -/
theorem paddedRandomIntn_999_props : ∀ ri, ri < 999 →
    (paddedRandomIntn 999 ri).length = 3 ∧
    (paddedRandomIntn 999 ri).all (fun ch => decide ('0' ≤ ch) && decide (ch ≤ '9')) = true ∧
    digitsVal (paddedRandomIntn 999 ri) = ri := by decide

/-- C7: for every parseable base address (represented by its parsed URL
fields), the transport address builder fails exactly when the server or
the session identifier is empty; otherwise it returns
`<scheme>://<host>/<path>/<serverID>/<sessionID>` — the four components
slash-joined by Go's `path.Join` — with the `<scheme>://` prefix omitted
when the base address has no scheme. -/
theorem parseTransportAddr_spec (u : GoURL) (serverID sessionID : List Char) :
    ((∃ v, parseTransportAddr u serverID sessionID = .ok v) ↔
      (serverID ≠ [] ∧ sessionID ≠ [])) ∧
    (serverID ≠ [] → sessionID ≠ [] →
      parseTransportAddr u serverID sessionID
        = .ok (if u.scheme ≠ [] then
                 u.scheme ++ ':' :: '/' :: '/' :: goPathJoin [u.host, u.path, serverID, sessionID]
               else goPathJoin [u.host, u.path, serverID, sessionID])) := by
  constructor
  · constructor
    · rintro ⟨v, hv⟩
      by_cases h1 : serverID = []
      · simp [parseTransportAddr, h1] at hv
      by_cases h2 : sessionID = []
      · simp [parseTransportAddr, h1, h2] at hv
      exact ⟨h1, h2⟩
    · rintro ⟨h1, h2⟩
      refine ⟨if u.scheme = [] then goPathJoin [u.host, u.path, serverID, sessionID]
              else u.scheme ++ ':' :: '/' :: '/' :: goPathJoin [u.host, u.path, serverID, sessionID],
        ?_⟩
      simp [parseTransportAddr, h1, h2]
  · intro h1 h2
    simp [parseTransportAddr, h1, h2]

/-- Witness for C7: the builder on `http://example.com/sockjs` with IDs
`000` and `abc` yields the standard transport address. -/
theorem parseTransportAddr_spec_witness :
    parseTransportAddr ⟨"http".data, "example.com".data, "/sockjs".data⟩ "000".data "abc".data
      = .ok "http://example.com/sockjs/000/abc".data := by
  have h := (parseTransportAddr_spec ⟨"http".data, "example.com".data, "/sockjs".data⟩
    "000".data "abc".data).2 (by decide) (by decide)
  rw [h]
  rfl

/-- C10 counterexample: `Connect` on a client with an empty ServerID does
*not* always store a generated identifier — when the capability fetch
fails, `ConnectContext` returns before the generation step and the field
stays empty (here: empty address, failing info fetch, the stored ID has
length 0, not 3). -/
theorem connect_serverID_counterexample :
    ¬ (∀ (c : ClientState) (infoRes : Except Err ServerInfo) (ri : Nat) (gs : List Char)
        (w x : Except Err Unit), c.serverID = [] → ri < 999 →
        ((connectContext c infoRes ri gs w x).client.serverID.length = 3)) := by
  intro h
  have h2 := h ⟨[], [], [], false, none, none⟩ (.error .readNetworkErr) 0 [] (.ok ()) (.ok ())
    rfl (by norm_num)
  rw [connectContext_serverID] at h2
  simp at h2

/-- C10 (amended): whenever `Connect` is called on a client whose ServerID
is empty *and the capability fetch succeeds*, it generates and stores a
3-character zero-padded decimal string whose value is the `rand.Intn(999)`
draw — hence in 0..998, with 999 never produced — and any client whose
ServerID is already set keeps it unchanged on later `Connect` calls. -/
theorem connect_generates_padded_serverID (c : ClientState) (info : ServerInfo)
    (ri : Nat) (gs : List Char) (w x : Except Err Unit)
    (hsid : c.serverID = []) (hri : ri < 999) :
    (connectContext c (.ok info) ri gs w x).client.serverID = paddedRandomIntn 999 ri ∧
    (paddedRandomIntn 999 ri).length = 3 ∧
    (paddedRandomIntn 999 ri).all (fun ch => decide ('0' ≤ ch) && decide (ch ≤ '9')) = true ∧
    digitsVal (paddedRandomIntn 999 ri) = ri ∧ ri ≤ 998 ∧
    (∀ (c2 : ClientState) (ir2 : Except Err ServerInfo) (ri2 : Nat) (gs2 : List Char)
       (w2 x2 : Except Err Unit), c2.serverID ≠ [] →
      (connectContext c2 ir2 ri2 gs2 w2 x2).client.serverID = c2.serverID) := by
  obtain ⟨hl, ha, hv⟩ := paddedRandomIntn_999_props ri hri
  refine ⟨?_, hl, ha, hv, by omega, ?_⟩
  · rw [connectContext_serverID]
    simp [hsid]
  · intro c2 ir2 ri2 gs2 w2 x2 h2
    rw [connectContext_serverID]
    rcases ir2 with _ | _
    · rfl
    · simp [h2]

/-- Witness for the amended C10: the draw `5` is stored as `"005"`. -/
theorem connect_generates_padded_serverID_witness :
    (connectContext ⟨[], [], [], false, none, none⟩
        (.ok ⟨true, false, [], 0⟩) 5 "s".data (.ok ()) (.ok ())).client.serverID
      = "005".data := by
  have h := (connect_generates_padded_serverID ⟨[], [], [], false, none, none⟩
    ⟨true, false, [], 0⟩ 5 "s".data (.ok ()) (.ok ()) rfl (by norm_num)).1
  rw [h]
  rfl

/-- C3: under a successful capability fetch, the Socket transport is dialed
first iff websocket is enabled by the caller and supported by the server;
on Socket success the conn is installed and Polling is never attempted; on
Socket failure Polling is always attempted — installing its conn and
discarding the Socket error on success, or failing with a cannot-connect
error naming both failures; when Socket was never attempted, failure names
only the Polling error. -/
theorem connect_fallback_policy (c : ClientState) (info : ServerInfo)
    (ri : Nat) (gs : List Char) (wsRes xhrRes : Except Err Unit) :
    ((connectContext c (.ok info) ri gs wsRes xhrRes).attempted.head? = some .ws ↔
      (¬c.noWebsocket ∧ info.websocket = true)) ∧
    ((¬c.noWebsocket ∧ info.websocket = true) → wsRes = .ok () →
      (connectContext c (.ok info) ri gs wsRes xhrRes).attempted = [.ws] ∧
      (connectContext c (.ok info) ri gs wsRes xhrRes).client.conn = some .ws ∧
      (connectContext c (.ok info) ri gs wsRes xhrRes).result = none) ∧
    (∀ we, (¬c.noWebsocket ∧ info.websocket = true) → wsRes = .error we →
      (connectContext c (.ok info) ri gs wsRes xhrRes).attempted = [.ws, .xhr] ∧
      (xhrRes = .ok () →
        (connectContext c (.ok info) ri gs wsRes xhrRes).client.conn = some .xhr ∧
        (connectContext c (.ok info) ri gs wsRes xhrRes).result = none) ∧
      (∀ xe, xhrRes = .error xe →
        (connectContext c (.ok info) ri gs wsRes xhrRes).result
          = some (.clientCannotConnectBoth we xe))) ∧
    (¬(¬c.noWebsocket ∧ info.websocket = true) →
      (connectContext c (.ok info) ri gs wsRes xhrRes).attempted = [.xhr] ∧
      (xhrRes = .ok () →
        (connectContext c (.ok info) ri gs wsRes xhrRes).client.conn = some .xhr ∧
        (connectContext c (.ok info) ri gs wsRes xhrRes).result = none) ∧
      (∀ xe, xhrRes = .error xe →
        (connectContext c (.ok info) ri gs wsRes xhrRes).result
          = some (.clientCannotConnectXHR xe))) := by
  have hnw := generateIDs_noWebsocket c ri gs
  rcases wsRes with we | wu <;> rcases xhrRes with xe | xu <;>
    simp only [connectContext, hnw] <;> split <;> rename_i hcond <;> simp_all

/-- Witness for C3: websocket enabled and supported but failing, polling
succeeding — the polling conn is installed and the Socket error dropped. -/
theorem connect_fallback_policy_witness :
    (connectContext ⟨"a".data, "1".data, "2".data, false, none, none⟩ (.ok ⟨true, false, [], 0⟩)
        0 [] (.error .dialNetworkErr) (.ok ())).client.conn = some .xhr ∧
    (connectContext ⟨"a".data, "1".data, "2".data, false, none, none⟩ (.ok ⟨true, false, [], 0⟩)
        0 [] (.error .dialNetworkErr) (.ok ())).result = none := by
  have h := (connect_fallback_policy ⟨"a".data, "1".data, "2".data, false, none, none⟩
    ⟨true, false, [], 0⟩ 0 [] (.error .dialNetworkErr) (.ok ())).2.2
  exact (h.1 .dialNetworkErr (by simp) rfl).2.1 rfl

/-- C6 counterexample: when the single initial frame is empty, the dial
panics inside `parseMessage` (out-of-bounds tag read) instead of failing
with the invalid-response error the claim requires. -/
theorem dial_open_validation_counterexample :
    ¬ (∀ (b : List Char), parsesAsOpen b = false →
        wsDialContext ⟨"ws".data, "h".data, []⟩ "1".data "2".data (.ok ()) (.ok b)
          = .err .invalidResponseOpening) := by
  intro h
  have h2 := h [] (by rfl)
  rw [show wsDialContext ⟨"ws".data, "h".data, []⟩ "1".data "2".data (.ok ()) (.ok [])
        = .panicked from rfl] at h2
  exact DialOut.noConfusion h2

/-- C6 (amended): each dial reads exactly one initial frame (the model's
single read-outcome parameter); provided that frame is non-empty, the dial
succeeds and hands back a connection iff the frame parses without error as
the Open type, failing with the invalid-response "opening sockjs session"
error otherwise, on both transports; dial or read failures propagate their
error and return no connection.  (An empty initial frame instead panics in
the frame parser — the counterexample above.) -/
theorem dial_open_validation (u : GoURL) (sid sess b : List Char) (v : List Char)
    (hb : b ≠ []) (haddr : parseTransportAddr u sid sess = .ok v) :
    (parsesAsOpen b = false →
      wsDialContext u sid sess (.ok ()) (.ok b) = .err .invalidResponseOpening ∧
      xhrDialContext u sid sess (.ok ()) (.ok b) = .err .invalidResponseOpening) ∧
    (parsesAsOpen b = true →
      wsDialContext u sid sess (.ok ()) (.ok b) = .ok ∧
      xhrDialContext u sid sess (.ok ()) (.ok b) = .ok) ∧
    (∀ e, wsDialContext u sid sess (.error e) (.ok b) = .err e ∧
      wsDialContext u sid sess (.ok ()) (.error e) = .err e) := by
  have hsome := parseMessage_isSome_of_ne_nil b hb
  cases hp : parseMessage b with
  | none => rw [hp] at hsome; cases hsome
  | some trip =>
    obtain ⟨mt, pl, e?⟩ := trip
    refine ⟨?_, ?_, ?_⟩
    · intro hopen
      rw [parsesAsOpen, hp] at hopen
      have hcond : e?.isSome ∨ mt ≠ .openFrame := by
        rcases e? with _ | e
        · rcases mt with _ | _ | _ | _ | _ <;> simp_all
        · simp
      constructor <;> simp [wsDialContext, xhrDialContext, haddr, hp, hcond]
    · intro hopen
      rw [parsesAsOpen, hp] at hopen
      have : mt = .openFrame ∧ e? = none := by
        rcases e? with _ | e
        · rcases mt with _ | _ | _ | _ | _ <;> simp_all
        · rcases mt with _ | _ | _ | _ | _ <;> simp_all
      obtain ⟨h1, h2⟩ := this
      subst h1; subst h2
      constructor <;> simp [wsDialContext, xhrDialContext, haddr, hp]
    · intro e
      constructor <;> simp [wsDialContext, haddr]

/-- Witness for the amended C6 at concrete frames `o` (success) and `h`
(invalid-response). -/
theorem dial_open_validation_witness :
    wsDialContext ⟨"ws".data, "h".data, []⟩ "1".data "2".data (.ok ()) (.ok "o".data) = .ok ∧
    xhrDialContext ⟨"ws".data, "h".data, []⟩ "1".data "2".data (.ok ()) (.ok "h".data)
      = .err .invalidResponseOpening := by
  have h1 := (dial_open_validation ⟨"ws".data, "h".data, []⟩ "1".data "2".data "o".data
    "ws://h/1/2".data (by decide) (by rfl)).2.1 (by rfl)
  have h2 := (dial_open_validation ⟨"ws".data, "h".data, []⟩ "1".data "2".data "h".data
    "ws://h/1/2".data (by decide) (by rfl)).1 (by rfl)
  exact ⟨h1.1, h2.2⟩

theorem runCount_append (h : List (Producer × InVal)) (p : Producer × InVal) :
    runCount (h ++ [p]) = runCount h + (if p.1 = Producer.runP then 1 else 0) := by
  simp only [runCount, List.filter_append, List.length_append]
  split <;> rename_i hp <;> simp [hp]

theorem watcherCount_append (h : List (Producer × InVal)) (p : Producer × InVal) :
    watcherCount (h ++ [p]) = watcherCount h + (if p.1 = Producer.watcherP then 1 else 0) := by
  simp only [watcherCount, List.filter_append, List.length_append]
  split <;> rename_i hp <;> simp [hp]

theorem countErrs_append (h : List (Producer × InVal)) (p : Producer × InVal) :
    countErrs (h ++ [p]) = countErrs h + (if isErrVal p.2 then 1 else 0) := by
  simp only [countErrs, List.filter_append, List.length_append]
  split <;> rename_i hp <;> simp [hp]

/-- Appending anything to a history with no `run` entry keeps
`noLoopAfterRun` true. -/
theorem noLoopAfterRun_append_of_no_run (h : List (Producer × InVal))
    (hr : runCount h = 0) (p : Producer × InVal) :
    noLoopAfterRun (h ++ [p]) = true := by
  induction h with
  | nil =>
    obtain ⟨q, v⟩ := p
    cases q <;> simp [noLoopAfterRun]
  | cons x t ih =>
    obtain ⟨q, v⟩ := x
    have hq : q ≠ Producer.runP := by
      intro hq
      subst hq
      simp [runCount, List.filter_cons] at hr
    have ht : runCount t = 0 := by
      simp only [runCount, List.filter_cons] at hr ⊢
      split at hr
      · simp at hr
      · exact hr
    cases q with
    | runP => exact absurd rfl hq
    | loopP => simpa [noLoopAfterRun] using ih ht
    | watcherP => simpa [noLoopAfterRun] using ih ht

/-- Appending anything to a history with no `run` entry keeps
`nothingAfterRun` true. -/
theorem nothingAfterRun_append_of_no_run (h : List (Producer × InVal))
    (hr : runCount h = 0) (p : Producer × InVal) :
    nothingAfterRun (h ++ [p]) = true := by
  induction h with
  | nil =>
    obtain ⟨q, v⟩ := p
    cases q <;> simp [nothingAfterRun]
  | cons x t ih =>
    obtain ⟨q, v⟩ := x
    have hq : q ≠ Producer.runP := by
      intro hq
      subst hq
      simp [runCount, List.filter_cons] at hr
    have ht : runCount t = 0 := by
      simp only [runCount, List.filter_cons] at hr ⊢
      split at hr
      · simp at hr
      · exact hr
    cases q with
    | runP => exact absurd rfl hq
    | loopP => simpa [nothingAfterRun] using ih ht
    | watcherP => simpa [nothingAfterRun] using ih ht

/-- Appending a non-loop entry preserves `noLoopAfterRun`. -/
theorem noLoopAfterRun_append_of_not_loop (h : List (Producer × InVal))
    (hn : noLoopAfterRun h = true) (p : Producer × InVal) (hp : p.1 ≠ Producer.loopP) :
    noLoopAfterRun (h ++ [p]) = true := by
  induction h with
  | nil =>
    obtain ⟨q, v⟩ := p
    cases q with
    | loopP => exact absurd rfl hp
    | runP => simp [noLoopAfterRun]
    | watcherP => simp [noLoopAfterRun]
  | cons x t ih =>
    obtain ⟨q, v⟩ := x
    cases q with
    | runP =>
      simp only [noLoopAfterRun, List.cons_append] at hn ⊢
      simp_all [List.append_eq, List.all_append]
      exact hn
    | loopP =>
      simp only [noLoopAfterRun, List.cons_append] at hn ⊢
      exact ih hn
    | watcherP =>
      simp only [noLoopAfterRun, List.cons_append] at hn ⊢
      exact ih hn

/-- With well-formed entries, the number of errors enqueued is the number
of `run` entries plus the number of watcher entries. -/
theorem countErrs_eq_of_entryOK (h : List (Producer × InVal))
    (hok : h.all entryOK = true) :
    countErrs h = runCount h + watcherCount h := by
  induction h with
  | nil => rfl
  | cons x t ih =>
    simp only [List.all_cons, Bool.and_eq_true] at hok
    obtain ⟨hx, ht⟩ := hok
    obtain ⟨q, v⟩ := x
    have := ih ht
    cases q <;> cases v <;>
      simp_all [countErrs, runCount, watcherCount, List.filter_cons, isErrVal, entryOK] <;>
      omega

end Sockjs
namespace Sockjs

theorem wsInv_init : WsInv wsInit :=
  ⟨rfl, by decide, fun _ => rfl, by decide, fun _ => rfl, rfl⟩

theorem wsInv_step (s : WsSt) (e : WsEv) (h : WsInv s) : WsInv ((wsStep s e).getD s) := by
  obtain ⟨h1, h2, h3, h4, h5, h6⟩ := h
  have hCopy : WsInv s := ⟨h1, h2, h3, h4, h5, h6⟩
  cases e <;>
    simp only [wsStep] <;>
    (repeat' split) <;>
    simp only [Option.getD_some, Option.getD_none] <;>
    first
    | exact hCopy
    | (refine ⟨h1, h2, fun hx => h3 ?_, h4, h5, h6⟩; simp_all [RlPC.isExited])
    | (refine ⟨h1, h2, h3, h4, fun hw => h5 ?_, h6⟩; simp_all)
    | (refine ⟨h1, h2, h3, h4, fun hw => absurd rfl hw, h6⟩)
    | -- the read loop enqueues one decoded message
      (rename_i m ms heq hlen
       have h0 : runCount s.hist = 0 := h3 (by rw [heq]; rfl)
       refine ⟨?_, ?_, fun hx => ?_, ?_, fun hw => ?_, ?_⟩
       · simp [List.all_append, h1, entryOK]
       · rw [runCount_append]; simp [h0]
       · rw [runCount_append]; simp [h0]
       · rw [watcherCount_append]; simpa using h4
       · rw [watcherCount_append]; simp; exact h5 hw
       · exact noLoopAfterRun_append_of_no_run _ h0 _)
    | -- run enqueues its final masked error
      (rename_i e heq hlen
       have h0 : runCount s.hist = 0 := h3 (by rw [heq]; rfl)
       refine ⟨?_, ?_, fun hx => ?_, ?_, fun hw => ?_, ?_⟩
       · simp [List.all_append, h1, entryOK]
       · rw [runCount_append]; simp [h0]
       · simp [RlPC.isExited] at hx
       · rw [watcherCount_append]; simpa using h4
       · rw [watcherCount_append]; simp; exact h5 hw
       · exact noLoopAfterRun_append_of_no_run _ h0 _)
    | -- the watcher enqueues ErrNoHeartbeat
      (rename_i heq hlen
       have hw0 : watcherCount s.hist = 0 := h5 (by rw [heq]; simp)
       refine ⟨?_, ?_, fun hx => ?_, ?_, fun hw => ?_, ?_⟩
       · simp [List.all_append, h1, entryOK]
       · rw [runCount_append]; simpa using h2
       · rw [runCount_append]; simp; exact h3 hx
       · rw [watcherCount_append]; simp [hw0]
       · exact absurd rfl hw
       · exact noLoopAfterRun_append_of_not_loop _ h6 _ (by simp))

end Sockjs
namespace Sockjs

theorem wsInv_exec (evs : List WsEv) : WsInv (wsExec evs) := by
  suffices h : ∀ s, WsInv s → WsInv (evs.foldl (fun s e => (wsStep s e).getD s) s) from
    h wsInit wsInv_init
  induction evs with
  | nil => intro s hs; exact hs
  | cons e t ih => intro s hs; exact ih _ (wsInv_step s e hs)

theorem xhrInv_init : XhrInv xhrInit := ⟨rfl, by decide, fun _ => rfl, rfl, rfl⟩

theorem xhrInv_step (s : XhrSt) (e : XhrEv) (h : XhrInv s) : XhrInv ((xhrStep s e).getD s) := by
  obtain ⟨h1, h2, h3, h4, h5⟩ := h
  have hCopy : XhrInv s := ⟨h1, h2, h3, h4, h5⟩
  cases e <;>
    simp only [xhrStep] <;>
    (repeat' split) <;>
    simp only [Option.getD_some, Option.getD_none] <;>
    first
    | exact hCopy
    | (refine ⟨h1, h2, fun hx => h3 ?_, h4, h5⟩; simp_all [XRlPC.isExited])
    | -- the read loop enqueues one decoded message
      (rename_i m ms heq hlen
       have h0 : runCount s.hist = 0 := h3 (by rw [heq]; rfl)
       refine ⟨?_, ?_, fun hx => ?_, ?_, ?_⟩
       · simp [List.all_append, h1, entryOK]
       · rw [runCount_append]; simp [h0]
       · rw [runCount_append]; simp [h0]
       · rw [watcherCount_append]; simp [h4]
       · exact nothingAfterRun_append_of_no_run _ h0 _)
    | -- run enqueues its final masked error
      (rename_i e heq hlen
       have h0 : runCount s.hist = 0 := h3 (by rw [heq]; rfl)
       refine ⟨?_, ?_, fun hx => ?_, ?_, ?_⟩
       · simp [List.all_append, h1, entryOK]
       · rw [runCount_append]; simp [h0]
       · simp [XRlPC.isExited] at hx
       · rw [watcherCount_append]; simp [h4]
       · exact nothingAfterRun_append_of_no_run _ h0 _)

theorem xhrInv_exec (evs : List XhrEv) : XhrInv (xhrExec evs) := by
  suffices h : ∀ s, XhrInv s → XhrInv (evs.foldl (fun s e => (xhrStep s e).getD s) s) from
    h xhrInit xhrInv_init
  induction evs with
  | nil => intro s hs; exact hs
  | cons e t ih => intro s hs; exact ih _ (xhrInv_step s e hs)

/-- With well-formed entries, no watcher entries and nothing after `run`'s
entry, the first error is also the last enqueued value. -/
theorem nothingAfterFirstErr_of_runOnly (h : List (Producer × InVal))
    (hok : h.all entryOK = true) (hw : watcherCount h = 0)
    (hr : nothingAfterRun h = true) : nothingAfterFirstErr h = true := by
  induction h with
  | nil => rfl
  | cons x t ih =>
    obtain ⟨q, v⟩ := x
    simp only [List.all_cons, Bool.and_eq_true] at hok
    obtain ⟨hx, ht⟩ := hok
    cases q with
    | loopP =>
      cases v with
      | msg m =>
        simp only [nothingAfterFirstErr, nothingAfterRun] at hr ⊢
        refine ih ht ?_ hr
        simpa [watcherCount, List.filter_cons] using hw
      | err e => simp [entryOK] at hx
    | runP =>
      cases v with
      | err e =>
        simp only [nothingAfterFirstErr, nothingAfterRun] at hr ⊢
        exact hr
      | msg m => simp [entryOK] at hx
    | watcherP =>
      exfalso
      simp [watcherCount, List.filter_cons] at hw

end Sockjs
namespace Sockjs

/-- C1 counterexample.  First schedule: the read loop enqueues message
`m1` from a data frame, the heartbeat timer fires, the watcher closes the
connection and enqueues the no-heartbeat error, and the read loop then
enqueues the still-pending `m2` — a value is enqueued after a terminal
error, and the no-heartbeat error is not observed last.  Second schedule:
a read error exits the loop and `run` enqueues its terminal error, then
the watcher (woken by the closed heartbeat channel) re-arms the timer,
takes the new fire and enqueues a second error — two terminal errors on
one connection.  Together these refute the claim as stated. -/
theorem terminal_error_counterexample :
    (wsExec [.frameArrive "a[\"m1\",\"m2\"]".data, .enqStep, .timerFire, .wTimerTake,
        .wCloseChk, .wCloseSend .sendOk, .wCloseNet, .wCloseCncl, .wEnq, .enqStep]).hist
      = [(.loopP, .msg "m1".data), (.watcherP, .err .noHeartbeat), (.loopP, .msg "m2".data)] ∧
    countErrs (wsExec [.readFail false, .rlCloseChk, .rlCloseSend .sendOk, .rlCloseNet,
        .rlCloseCncl, .rlDrain, .rlCloseHb, .runEnq, .wHbClosedReset, .timerFire, .wTimerTake,
        .wCloseChk, .wEnq]).hist = 2 ∧
    ¬ (∀ evs : List WsEv,
        countErrs (wsExec evs).hist ≤ 1 ∧ nothingAfterFirstErr (wsExec evs).hist = true) := by
  refine ⟨by rfl, by decide, ?_⟩
  intro h
  have h2 := (h [.frameArrive "a[\"m1\",\"m2\"]".data, .enqStep, .timerFire, .wTimerTake,
    .wCloseChk, .wCloseSend .sendOk, .wCloseNet, .wCloseCncl, .wEnq, .enqStep]).2
  exact absurd h2 (by decide)

/-- C1 (amended): for a Polling connection, at most one terminal error is
ever enqueued and nothing follows it.  For a Socket connection the `run`
goroutine enqueues at most one terminal error and no message is ever
enqueued after it, but the heartbeat watcher is a second, concurrent error
producer: it may enqueue one additional no-heartbeat error, so up to two
error values can be enqueued in total, and messages may still be enqueued
after the watcher's no-heartbeat error. -/
theorem terminal_error_discipline :
    (∀ evs : List WsEv,
      countErrs (wsExec evs).hist ≤ 2 ∧
      runCount (wsExec evs).hist ≤ 1 ∧
      watcherCount (wsExec evs).hist ≤ 1 ∧
      noLoopAfterRun (wsExec evs).hist = true) ∧
    (∀ evs : List XhrEv,
      countErrs (xhrExec evs).hist ≤ 1 ∧
      nothingAfterFirstErr (xhrExec evs).hist = true) := by
  constructor
  · intro evs
    obtain ⟨h1, h2, h3, h4, h5, h6⟩ := wsInv_exec evs
    refine ⟨?_, h2, h4, h6⟩
    rw [countErrs_eq_of_entryOK _ h1]
    omega
  · intro evs
    obtain ⟨h1, h2, h3, h4, h5⟩ := xhrInv_exec evs
    refine ⟨?_, nothingAfterFirstErr_of_runOnly _ h1 h4 h5⟩
    rw [countErrs_eq_of_entryOK _ h1]
    omega

/-- C2 counterexample: after a completed `Close()` (which returned nil), a
subsequent `ReadMsg` returns a buffered message instead of a
closed-connection error — `Close` only cancels the context and does not
discard the inbound queue, and the `select` in `ReadMsg` may pick the
non-empty channel over the cancelled context. -/
theorem close_then_read_counterexample :
    ¬ (∀ evs : List XhrEv, readOkAfterClose (xhrExec evs).appLog = false) := by
  intro h
  exact absurd (h [.pollResp 200 "a[\"m\"]".data, .enqStep, .appCloseCall, .appReadCall true])
    (by decide)

/-- C2 (amended): every completed `Close()` leaves the cancellation token
set, and once it is set: `WriteMsg` always returns the closed-connection
error; calling `Close()` again is a no-op returning no error; and
`ReadMsg` returns either a value that was already enqueued before the
close (the queue is not discarded) or the closed-connection error — with
an empty queue it always returns the closed-connection error.  Stated for
both connection types over their transition systems. -/
theorem close_semantics :
    (∀ s s' : WsSt, wsStep s .appCloseCncl = some s' → s'.cancelled = true) ∧
    (∀ (s : WsSt) (o : COut) (s' : WsSt), wsStep s (.appCloseSend o) = some s' →
      s'.app = APC.idle → s'.cancelled = true) ∧
    (∀ s : WsSt, s.cancelled = true → s.app = APC.idle →
      wsStep s .appCloseCall = some { s with appLog := s.appLog ++ [.closeRet none] }) ∧
    (∀ s : WsSt, s.cancelled = true → s.app = APC.idle →
      wsStep s .appWriteCall
        = some { s with appLog := s.appLog ++ [.writeRet (some .closedConnection)] }) ∧
    (∀ (s : WsSt) (u : Bool) (s' : WsSt), s.cancelled = true →
      wsStep s (.appReadCall u) = some s' →
      (s.queue = [] → s'.appLog = s.appLog ++ [.readRet (.error .closedConnection)]) ∧
      (∀ v rest, s.queue = v :: rest →
        s'.appLog = s.appLog ++ [.readRet (.error .closedConnection)] ∨
        s'.appLog = s.appLog ++ [.readRet (match v with
          | .msg m => .ok m
          | .err er => .error er)])) ∧
    (∀ s : XhrSt, s.app = XAPC.idle →
      xhrStep s .appCloseCall
        = some { s with cancelled := true, appLog := s.appLog ++ [.closeRet none] }) ∧
    (∀ s : XhrSt, s.cancelled = true → s.app = XAPC.idle →
      xhrStep s .appWriteCall
        = some { s with appLog := s.appLog ++ [.writeRet (some .closedConnection)] }) ∧
    (∀ (s : XhrSt) (u : Bool) (s' : XhrSt), s.cancelled = true →
      xhrStep s (.appReadCall u) = some s' →
      (s.queue = [] → s'.appLog = s.appLog ++ [.readRet (.error .closedConnection)]) ∧
      (∀ v rest, s.queue = v :: rest →
        s'.appLog = s.appLog ++ [.readRet (.error .closedConnection)] ∨
        s'.appLog = s.appLog ++ [.readRet (match v with
          | .msg m => .ok m
          | .err er => .error er)])) := by
  refine ⟨?_, ?_, ?_, ?_, ?_, ?_, ?_, ?_⟩
  · intro s s' hstep
    simp only [wsStep] at hstep
    split at hstep
    · cases hstep; rfl
    · cases hstep
  · intro s o s' hstep happ
    simp only [wsStep] at hstep
    split at hstep
    · split at hstep
      · cases hstep; rfl
      · split at hstep
        · cases hstep; rfl
        · cases hstep; cases happ
    · cases hstep
  · intro s hc happ
    simp [wsStep, happ, hc]
  · intro s hc happ
    simp [wsStep, happ, hc]
  · intro s u s' hc hstep
    simp only [wsStep] at hstep
    split at hstep
    case _ =>
      refine ⟨?_, ?_⟩
      · intro hq
        rw [hq] at hstep
        simp only [hc, if_true] at hstep
        cases hstep
        rfl
      · intro v rest hq
        rw [hq] at hstep
        by_cases hu : u = true
        · have hcond : ¬(s.cancelled = true ∧ ¬u = true) := by simp [hu]
          simp only [if_neg hcond] at hstep
          cases hstep
          right
          rfl
        · have hcond : s.cancelled = true ∧ ¬u = true := ⟨hc, by simp [hu]⟩
          simp only [if_pos hcond] at hstep
          cases hstep
          left
          rfl
    all_goals cases hstep
  · intro s happ
    simp [xhrStep, happ]
  · intro s hc happ
    simp [xhrStep, happ, hc]
  · intro s u s' hc hstep
    simp only [xhrStep] at hstep
    split at hstep
    case _ =>
      refine ⟨?_, ?_⟩
      · intro hq
        rw [hq] at hstep
        simp only [hc, if_true] at hstep
        cases hstep
        rfl
      · intro v rest hq
        rw [hq] at hstep
        by_cases hu : u = true
        · have hcond : ¬(s.cancelled = true ∧ ¬u = true) := by simp [hu]
          simp only [if_neg hcond] at hstep
          cases hstep
          right
          rfl
        · have hcond : s.cancelled = true ∧ ¬u = true := ⟨hc, by simp [hu]⟩
          simp only [if_pos hcond] at hstep
          cases hstep
          left
          rfl
    all_goals cases hstep

/-- Witness for the amended C2 at concrete states: a cancelled websocket
connection rejects `WriteMsg` with the closed-connection error, and a
second `Close` on an already-cancelled polling connection returns nil. -/
theorem close_semantics_witness :
    wsStep { wsInit with cancelled := true } .appWriteCall
      = some { wsInit with
          cancelled := true
          appLog := [.writeRet (some .closedConnection)] } ∧
    xhrStep { xhrInit with cancelled := true } .appCloseCall
      = some { xhrInit with
          cancelled := true
          appLog := [.closeRet none] } :=
  ⟨close_semantics.2.2.2.1 { wsInit with cancelled := true } rfl rfl,
   close_semantics.2.2.2.2.2.1 { xhrInit with cancelled := true } rfl⟩

end Sockjs
